import Mathlib

/-!
Shallow embedding of the CV scoring/ranking/evaluation core of the
HR CV assistant (Python sources under `src/cv_assistant/`), together with
theorems settling the specification claims about it.

Conventions of the embedding:
* Python floats are modelled as exact rationals (`ℚ`); the two places where
  the source computes a logarithm (`math.log` in the awards scorer,
  `math.log2` in nDCG) are modelled over `ℝ` with `Real.log` / `Real.logb`.
* Python `round(x, n)` (banker's rounding to `n` decimals) is modelled by
  `round_half_even`, a round-half-to-even on the idealized rational value.
* Python dicts of records are modelled as structures with one field per key
  the code reads; `dict.get(k)` of a possibly-missing numeric key becomes
  `Option`; Python truthiness of a number is the test `≠ 0`, of a string the
  test `≠ ""`.
* The fuzzy catalogue lookups of `mapping_utils.py` are an injected
  capability (the spec treats them as an external collaborator), modelled as
  an abstract `Mappings` structure of functions.
-/

/-- Lowercase a string character by character (model of Python `str.lower()`
for the keyword tests of the scorers). -/
def strLower (s : String) : String := ⟨s.data.map Char.toLower⟩

/-- `chStarts needle hay` is true when `needle` is an initial segment of
`hay` (helper for substring containment). -/
def chStarts : List Char → List Char → Bool
  | [], _ => true
  | _ :: _, [] => false
  | a :: as, b :: bs => a = b && chStarts as bs

/-- `chContains needle hay` is true when `needle` occurs contiguously in
`hay` (helper for substring containment). -/
def chContains (needle : List Char) : List Char → Bool
  | [] => needle.isEmpty
  | c :: rest => chStarts needle (c :: rest) || chContains needle rest

/-- Model of Python `needle in hay` on strings: contiguous substring test. -/
def containsStr (hay needle : String) : Bool := chContains needle.data hay.data

/-- Model of Python `str.strip()`: drop leading and trailing whitespace. -/
def strStrip (s : String) : String :=
  ⟨((s.data.dropWhile Char.isWhitespace).reverse.dropWhile Char.isWhitespace).reverse⟩

/-- Clamp to [0,1]: the `max(0.0, min(1.0, score))` idiom of the scorers. -/
def clamp01 {α : Type} [LinearOrderedField α] (x : α) : α := max 0 (min 1 x)

/-- Round half to even to an integer, the rounding mode of Python `round`
(on the idealized exact value). -/
def round_half_even {α : Type} [LinearOrderedField α] [FloorRing α]
    [DecidableRel ((· < ·) : α → α → Prop)] (x : α) : ℤ :=
  if Int.fract x < 1 / 2 then ⌊x⌋
  else if 1 / 2 < Int.fract x then ⌊x⌋ + 1
  else if Even ⌊x⌋ then ⌊x⌋ else ⌊x⌋ + 1

/-- Python `round(x, 4)`. -/
def round4 {α : Type} [LinearOrderedField α] [FloorRing α]
    [DecidableRel ((· < ·) : α → α → Prop)] (x : α) : α :=
  ((round_half_even (x * 10000) : ℤ) : α) / 10000

/-- Python `round(x, 3)`. -/
def round3 {α : Type} [LinearOrderedField α] [FloorRing α]
    [DecidableRel ((· < ·) : α → α → Prop)] (x : α) : α :=
  ((round_half_even (x * 1000) : ℤ) : α) / 1000

/-- Python `round(x, 2)`. -/
def round2 {α : Type} [LinearOrderedField α] [FloorRing α]
    [DecidableRel ((· < ·) : α → α → Prop)] (x : α) : α :=
  ((round_half_even (x * 100) : ℤ) : α) / 100

/-! ## Data model (`§3` of the spec, fields as read by the scorers) -/

/-- One education entry: keys `degree`, `field`, `university`, `gpa`,
`scale` read by `education_scorer.py` and `coherence_scorer.py`. -/
structure EducationItem where
  degree : String
  field : String
  university : String
  gpa : ℚ
  scale : ℚ
deriving DecidableEq

/-- One experience entry: keys `title`, `org`, `domain`, `duration_months`,
`end` read by `experience_scorer.py` and `coherence_scorer.py`
(`endDate` models the `end` key). -/
structure ExperienceItem where
  title : String
  org : String
  domain : String
  duration_months : Option ℕ
  endDate : String
deriving DecidableEq

/-- One publication entry: keys `title`, `venue`, `type`, `author_position`,
`journal_if`, `domain` read by `publication_scorer.py` (`pubType` models the
`type` key). -/
structure PublicationItem where
  title : String
  venue : String
  pubType : String
  author_position : Option ℕ
  journal_if : Option ℚ
  domain : String
deriving DecidableEq

/-- One award entry: keys `title`, `issuer`, `type` read by
`awards_scorer.py` (`awardType` models the `type` key). -/
structure AwardItem where
  title : String
  issuer : String
  awardType : String
deriving DecidableEq

/-- A parsed CV record: the four item sequences the scorers consume. -/
structure CVRecord where
  education : List EducationItem
  experience : List ExperienceItem
  publications : List PublicationItem
  awards : List AwardItem
deriving DecidableEq

/-- The configuration knobs the scoring core reads (`config_loader.py`
accessors `get_weight`/`get_subweights`/`get_policy`/`get_normalization`),
one field per knob. -/
structure Config where
  w_education : ℚ
  w_experience : ℚ
  w_publications : ℚ
  w_coherence : ℚ
  w_awards_other : ℚ
  sw_gpa : ℚ
  sw_degree_level : ℚ
  sw_university_tier : ℚ
  sw_duration : ℚ
  sw_domain_match : ℚ
  sw_seniority : ℚ
  sw_if : ℚ
  sw_author_position : ℚ
  sw_venue_quality : ℚ
  sw_domain_consistency : ℚ
  sw_progression : ℚ
  phd_bonus : ℚ
  masters_bonus : ℚ
  first_author_bonus : ℚ
  second_author_bonus : ℚ
  experience_bonus : ℚ
  min_months_experience_for_bonus : ℚ
  target_domain : String
  domain_match_bonus : ℚ
  min_domain_consistency : ℚ
  max_experience_months : ℚ
  max_journal_if : ℚ

/-- The injected catalogue-lookup capability (`mapping_utils.py` name-based
lookups; treated as an external collaborator per the spec). -/
structure Mappings where
  get_university_tier_score : String → ℚ
  get_journal_if : String → ℚ
  get_venue_quality_score : String → ℚ

/-- `MappingUtils.get_degree_level_score`: 3 for doctorate keywords, else 2
for masters keywords, else 1 (case-insensitive substring checks, doctorate
first). -/
def get_degree_level_score (degree : String) : ℕ :=
  if degree = "" then 1
  else
    let d := strLower degree
    if ["phd", "ph.d", "doctorate", "doctoral"].any (fun k => containsStr d k) then 3
    else if ["msc", "ms", "ma", "master", "mphil"].any (fun k => containsStr d k) then 2
    else 1

/-- `BaseScorer.normalize_score`: `min(1, value/max_value)`, 0 when
`max_value == 0`. -/
def normalize_score (value max_value : ℚ) : ℚ :=
  if max_value = 0 then 0 else min 1 (value / max_value)

/-! ## Education scorer (`education_scorer.py`) -/

/-- `EducationScorer._calculate_gpa_score`: max over entries of `gpa/scale`,
counting only entries with truthy `gpa`, truthy `scale` and `scale > 0`;
starts from 0. -/
def calculate_gpa_score (items : List EducationItem) : ℚ :=
  items.foldl
    (fun acc e =>
      if e.gpa ≠ 0 ∧ e.scale ≠ 0 ∧ 0 < e.scale then max acc (e.gpa / e.scale) else acc)
    0

/-- `EducationScorer._calculate_degree_score`: `(max_level - 1)/2` over the
resolved degree levels, 0 when the max level is 0. -/
def calculate_degree_score (items : List EducationItem) : ℚ :=
  let maxLevel := items.foldl (fun acc e => max acc (get_degree_level_score e.degree)) 0
  if 0 < maxLevel then ((maxLevel : ℚ) - 1) / 2 else 0

/-- `EducationScorer._calculate_university_score`: max resolved tier score
over entries, starting from 0. -/
def calculate_university_score (maps : Mappings) (items : List EducationItem) : ℚ :=
  items.foldl (fun acc e => max acc (maps.get_university_tier_score e.university)) 0

/-- `EducationScorer._apply_bonuses`: +phd_bonus when some degree string
contains a doctorate keyword, else +masters_bonus when some degree string
contains a masters keyword. (The code's loop sets two flags with an
`if/elif` per entry and tests `has_phd` first afterwards.) -/
def apply_bonuses (cfg : Config) (base : ℚ) (items : List EducationItem) : ℚ :=
  let has_phd := items.any (fun e =>
    containsStr (strLower e.degree) "phd" || containsStr (strLower e.degree) "doctorate")
  let has_masters := items.any (fun e =>
    !(containsStr (strLower e.degree) "phd" || containsStr (strLower e.degree) "doctorate") &&
      (containsStr (strLower e.degree) "msc" || containsStr (strLower e.degree) "master" ||
        containsStr (strLower e.degree) "ms"))
  if has_phd then base + cfg.phd_bonus
  else if has_masters then base + cfg.masters_bonus
  else base

/-- The criterion score returned by `EducationScorer.calculate_score`:
0.0 for an empty education list, else the clamped bonus-adjusted weighted
combination of the three sub-scores. -/
def education_final_score (cfg : Config) (maps : Mappings) (cv : CVRecord) : ℚ :=
  if cv.education = [] then 0
  else
    clamp01 (apply_bonuses cfg
      (calculate_gpa_score cv.education * cfg.sw_gpa +
        calculate_degree_score cv.education * cfg.sw_degree_level +
        calculate_university_score maps cv.education * cfg.sw_university_tier)
      cv.education)

/-- The `sub_scores` mapping of the education details (values rounded to 3
decimals in the non-empty branch, zeros in the empty branch). -/
def education_sub_scores (maps : Mappings) (cv : CVRecord) : List (String × ℚ) :=
  if cv.education = [] then
    [("gpa", 0), ("degree_level", 0), ("university_tier", 0)]
  else
    [("gpa", round3 (calculate_gpa_score cv.education)),
     ("degree_level", round3 (calculate_degree_score cv.education)),
     ("university_tier", round3 (calculate_university_score maps cv.education))]

/-! ## Experience scorer (`experience_scorer.py`) -/

/-- `ExperienceScorer._estimate_duration`: 12 months when the `end` field is
truthy and contains "current"/"present"/"now" (case-insensitive), else 0. -/
def estimate_duration (e : ExperienceItem) : ℕ :=
  if e.endDate ≠ "" ∧
      (["current", "present", "now"].any fun k => containsStr (strLower e.endDate) k) then 12
  else 0

/-- The contribution of one entry to `_calculate_total_months`: the declared
`duration_months` when truthy, else the heuristic estimate. -/
def item_months (e : ExperienceItem) : ℕ :=
  match e.duration_months with
  | some d => if d ≠ 0 then d else estimate_duration e
  | none => estimate_duration e

/-- `ExperienceScorer._calculate_total_months`. -/
def calculate_total_months (items : List ExperienceItem) : ℕ :=
  (items.map item_months).sum

/-- `ExperienceScorer._calculate_duration_score`. -/
def calculate_duration_score (cfg : Config) (items : List ExperienceItem) : ℚ :=
  normalize_score (calculate_total_months items : ℚ) cfg.max_experience_months

/-- `ExperienceScorer._calculate_domain_score`: 0.5 without a target domain;
else the fraction of entries whose domain contains the target
(case-insensitive), with a +bonus capped at 1 once the ratio reaches 0.5. -/
def calculate_domain_score (cfg : Config) (items : List ExperienceItem) : ℚ :=
  if cfg.target_domain = "" then 1 / 2
  else
    let matched := items.countP
      (fun e => containsStr (strLower e.domain) (strLower cfg.target_domain))
    if items.length = 0 then 0
    else
      let ratio : ℚ := (matched : ℚ) / (items.length : ℚ)
      if 1 / 2 ≤ ratio then min 1 (ratio + cfg.domain_match_bonus) else ratio

/-- Seniority keyword level used by `ExperienceScorer` (note: its mid-level
keyword list has no "consultant", unlike the coherence scorer's). -/
def exp_seniority_level (title : String) : ℕ :=
  let t := strLower title
  if ["senior", "lead", "principal", "director", "manager", "head", "chief", "vp"].any
      (fun k => containsStr t k) then 3
  else if ["associate", "specialist", "analyst", "engineer", "developer"].any
      (fun k => containsStr t k) then 2
  else 1

/-- `ExperienceScorer._calculate_seniority_score`: `(max_level - 1)/2` of the
per-entry keyword levels, 0 when the max is 0. -/
def calculate_seniority_score (items : List ExperienceItem) : ℚ :=
  let maxSen := items.foldl (fun acc e => max acc (exp_seniority_level e.title)) 0
  if 0 < maxSen then ((maxSen : ℚ) - 1) / 2 else 0

/-- `ExperienceScorer._apply_experience_bonus`. -/
def apply_experience_bonus (cfg : Config) (base : ℚ) (total_months : ℕ) : ℚ :=
  if cfg.min_months_experience_for_bonus ≤ (total_months : ℚ) then
    base + cfg.experience_bonus
  else base

/-- The criterion score returned by `ExperienceScorer.calculate_score`. -/
def experience_final_score (cfg : Config) (cv : CVRecord) : ℚ :=
  if cv.experience = [] then 0
  else
    clamp01 (apply_experience_bonus cfg
      (calculate_duration_score cfg cv.experience * cfg.sw_duration +
        calculate_domain_score cfg cv.experience * cfg.sw_domain_match +
        calculate_seniority_score cv.experience * cfg.sw_seniority)
      (calculate_total_months cv.experience))

/-- The `sub_scores` mapping of the experience details. -/
def experience_sub_scores (cfg : Config) (cv : CVRecord) : List (String × ℚ) :=
  if cv.experience = [] then
    [("duration", 0), ("domain_match", 0), ("seniority", 0)]
  else
    [("duration", round3 (calculate_duration_score cfg cv.experience)),
     ("domain_match", round3 (calculate_domain_score cfg cv.experience)),
     ("seniority", round3 (calculate_seniority_score cv.experience))]

/-! ## Publication scorer (`publication_scorer.py`) -/

/-- The impact value resolved for one entry inside
`PublicationScorer._calculate_if_score`: the declared `journal_if` when
truthy; otherwise the catalogue journal-IF lookup for journal-type entries
or the venue-quality score scaled ×10 for the rest. -/
def resolve_if_value (maps : Mappings) (p : PublicationItem) : ℚ :=
  let fallback :=
    if containsStr (strLower p.pubType) "journal" then maps.get_journal_if p.venue
    else maps.get_venue_quality_score p.venue * 10
  match p.journal_if with
  | some v => if v ≠ 0 then v else fallback
  | none => fallback

/-- `PublicationScorer._calculate_if_score`: the loop accumulates the
normalized impact value and a count only for entries whose resolved value is
truthy, and divides at the end (0 when the count stays 0). -/
def calculate_if_score (cfg : Config) (maps : Mappings) (items : List PublicationItem) : ℚ :=
  if items = [] then 0
  else
    let acc := items.foldl
      (fun (acc : ℚ × ℕ) p =>
        let v := resolve_if_value maps p
        if v ≠ 0 then (acc.1 + normalize_score v cfg.max_journal_if, acc.2 + 1) else acc)
      (0, 0)
    if 0 < acc.2 then acc.1 / (acc.2 : ℚ) else 0

/-- The position-tiered value of one entry in
`PublicationScorer._calculate_author_position_score` (`author_position`
defaults to 999 when absent). -/
def author_position_value (cfg : Config) (p : PublicationItem) : ℚ :=
  let position := p.author_position.getD 999
  if position = 1 then min 1 (1 + cfg.first_author_bonus)
  else if position = 2 then min 1 (4 / 5 + cfg.second_author_bonus)
  else if position ≤ 5 then 3 / 5 - ((position : ℚ) - 3) * (1 / 10)
  else 1 / 5

/-- `PublicationScorer._calculate_author_position_score`: mean of the
position-tiered values. -/
def calculate_author_position_score (cfg : Config) (items : List PublicationItem) : ℚ :=
  if items = [] then 0
  else (items.map (author_position_value cfg)).sum / (items.length : ℚ)

/-- The per-entry venue value in `PublicationScorer._calculate_venue_score`:
`min(1, IF/50)` for journal-type entries, else the catalogue venue-quality
score. -/
def venue_value (maps : Mappings) (p : PublicationItem) : ℚ :=
  if containsStr (strLower p.pubType) "journal" then
    min 1 (maps.get_journal_if p.venue / 50)
  else maps.get_venue_quality_score p.venue

/-- `PublicationScorer._calculate_venue_score`: mean of the per-entry venue
values. -/
def calculate_venue_score (maps : Mappings) (items : List PublicationItem) : ℚ :=
  if items = [] then 0
  else (items.map (venue_value maps)).sum / (items.length : ℚ)

/-- The criterion score returned by `PublicationScorer.calculate_score`. -/
def publication_final_score (cfg : Config) (maps : Mappings) (cv : CVRecord) : ℚ :=
  if cv.publications = [] then 0
  else
    clamp01 (calculate_if_score cfg maps cv.publications * cfg.sw_if +
      calculate_author_position_score cfg cv.publications * cfg.sw_author_position +
      calculate_venue_score maps cv.publications * cfg.sw_venue_quality)

/-- The `sub_scores` mapping of the publications details. -/
def publication_sub_scores (cfg : Config) (maps : Mappings) (cv : CVRecord) :
    List (String × ℚ) :=
  if cv.publications = [] then
    [("if", 0), ("author_position", 0), ("venue_quality", 0)]
  else
    [("if", round3 (calculate_if_score cfg maps cv.publications)),
     ("author_position", round3 (calculate_author_position_score cfg cv.publications)),
     ("venue_quality", round3 (calculate_venue_score maps cv.publications))]

/-! ## Coherence scorer (`coherence_scorer.py`) -/

/-- `CoherenceScorer._get_seniority_level_numeric` (its mid-level keyword
list has "consultant" in addition to the experience scorer's list). -/
def coh_seniority_level (title : String) : ℕ :=
  let t := strLower title
  if ["senior", "lead", "principal", "director", "manager", "head", "chief", "vp"].any
      (fun k => containsStr t k) then 3
  else if ["associate", "specialist", "analyst", "engineer", "developer", "consultant"].any
      (fun k => containsStr t k) then 2
  else 1

/-- The pooled domain tokens of `_calculate_domain_consistency`: stripped,
lowercased and kept when non-empty, from experience `domain`, education
`field` and publication `domain` fields, in that order. -/
def collect_domains (cv : CVRecord) : List String :=
  ((cv.experience.map fun e => strLower (strStrip e.domain)) ++
    (cv.education.map fun e => strLower (strStrip e.field)) ++
    (cv.publications.map fun p => strLower (strStrip p.domain))).filter
    (fun d => d ≠ "")

/-- The count of the most frequent element (the `most_common_count` of the
`Counter` in `_calculate_domain_consistency`). -/
def most_common_count (l : List String) : ℕ :=
  (l.map fun d => l.count d).foldl max 0

/-- `CoherenceScorer._calculate_domain_consistency`: 0.5 without domain
info; else the top-domain frequency ratio, +0.1 (capped at 1) when it meets
the configured minimum. -/
def calculate_domain_consistency (cfg : Config) (cv : CVRecord) : ℚ :=
  let domains := collect_domains cv
  if domains = [] then 1 / 2
  else
    let consistency : ℚ := (most_common_count domains : ℚ) / (domains.length : ℚ)
    if cfg.min_domain_consistency ≤ consistency then min 1 (consistency + 1 / 10)
    else consistency

/-- The loop body of `_calculate_progression_score`: the number of adjacent
index pairs `(i, i+1)` whose entry at `i` has seniority level ≥ the entry at
`i+1` (the list is taken in the order given, assumed most-recent-first). -/
def count_progressions : List ExperienceItem → ℕ
  | x :: y :: rest =>
    (if coh_seniority_level y.title ≤ coh_seniority_level x.title then 1 else 0) +
      count_progressions (y :: rest)
  | _ => 0

/-- `CoherenceScorer._calculate_progression_score`: 0.5 with fewer than two
entries, else the fraction of adjacent pairs showing non-decreasing
seniority toward the more recent entry. -/
def calculate_progression_score (items : List ExperienceItem) : ℚ :=
  if items.length < 2 then 1 / 2
  else (count_progressions items : ℚ) / ((items.length : ℚ) - 1)

/-- The criterion score returned by `CoherenceScorer.calculate_score`:
0.5 without experience entries, else the clamped weighted combination. -/
def coherence_final_score (cfg : Config) (cv : CVRecord) : ℚ :=
  if cv.experience = [] then 1 / 2
  else
    clamp01 (calculate_domain_consistency cfg cv * cfg.sw_domain_consistency +
      calculate_progression_score cv.experience * cfg.sw_progression)

/-- The `sub_scores` mapping of the coherence details. -/
def coherence_sub_scores (cfg : Config) (cv : CVRecord) : List (String × ℚ) :=
  if cv.experience = [] then
    [("domain_consistency", 1 / 2), ("progression", 1 / 2)]
  else
    [("domain_consistency", round3 (calculate_domain_consistency cfg cv)),
     ("progression", round3 (calculate_progression_score cv.experience))]

/-! ## Awards scorer (`awards_scorer.py`) -/

/-- The per-award score of the loop in
`AwardsScorer._calculate_awards_score`: a category base (0.3 / 0.6 / 0.8),
+0.2 for a prestige keyword in the title, +0.1 for a prestige keyword in
the issuer, capped at 1. -/
def per_award_score (a : AwardItem) : ℚ :=
  let t := strLower a.awardType
  let ti := strLower a.title
  let issuer := strLower a.issuer
  let base : ℚ := 3 / 10
  let base := if ["research", "academic", "professional"].any (fun k => containsStr t k)
    then 3 / 5 else base
  let base := if ["national", "international"].any (fun k => containsStr t k)
    then 4 / 5 else base
  let withTitle := base +
    (if ["gold", "medal", "best", "outstanding", "excellence", "dean's list", "honors",
        "scholarship", "fellowship", "distinguished", "achievement", "recognition"].any
        (fun k => containsStr ti k) then 1 / 5 else 0)
  let withIssuer := withTitle +
    (if ["ieee", "acm", "google", "microsoft", "amazon", "national", "international",
        "government"].any (fun k => containsStr issuer k) then 1 / 10 else 0)
  min 1 withIssuer

/-- `AwardsScorer._calculate_awards_score`: the summed per-award scores put
through the diminishing-returns normalization
`log(1 + total) / log(1 + n·1.5)`, capped at 1 (0 for an empty list). -/
noncomputable def calculate_awards_score (items : List AwardItem) : ℝ :=
  if items = [] then 0
  else
    min 1 (Real.log (1 + ((items.map per_award_score).sum : ℚ)) /
      Real.log (1 + (items.length : ℝ) * (3 / 2)))

/-- The criterion score returned by `AwardsScorer.calculate_score`:
0.0 for an empty awards list, else the clamped aggregate. -/
noncomputable def awards_final_score (cv : CVRecord) : ℝ :=
  if cv.awards = [] then 0 else clamp01 (calculate_awards_score cv.awards)

/-! ## Score aggregator (`aggregator.py`) -/

/-- `ScoreAggregator.calculate_final_score`'s `final_score` value: the
weighted sum of the five criterion scores, clamped to [0,1] and rounded to
4 decimals. -/
noncomputable def aggregate_final_score (cfg : Config) (maps : Mappings) (cv : CVRecord) : ℝ :=
  round4 (clamp01
    ((education_final_score cfg maps cv : ℝ) * (cfg.w_education : ℝ) +
      (experience_final_score cfg cv : ℝ) * (cfg.w_experience : ℝ) +
      (publication_final_score cfg maps cv : ℝ) * (cfg.w_publications : ℝ) +
      (coherence_final_score cfg cv : ℝ) * (cfg.w_coherence : ℝ) +
      awards_final_score cv * (cfg.w_awards_other : ℝ)))

/-- The concatenated `sub_scores` entries of the four detail dicts that
define them (education, experience, publications, coherence; the awards
details carry no `sub_scores`). -/
def all_sub_scores (cfg : Config) (maps : Mappings) (cv : CVRecord) : List (String × ℚ) :=
  education_sub_scores maps cv ++ experience_sub_scores cfg cv ++
    publication_sub_scores cfg maps cv ++ coherence_sub_scores cfg cv

/-! ## Ranker (`ranker.py`) -/

/-- One entry of the `scores` list of a scoring summary, as read by
`CVRanker.rank_from_summary` (`cv_filename` and the `final_score` sort
key). -/
structure ScoredCV where
  cv_filename : String
  final_score : ℚ
deriving DecidableEq

/-- The descending comparison by `final_score` that Python's stable
`sorted(..., key=final_score, reverse=True)` realizes: `a` may stay before
`b` exactly when `b`'s score is not larger. -/
def score_ge (a b : ScoredCV) : Prop := b.final_score ≤ a.final_score

instance : DecidableRel score_ge :=
  fun a b => inferInstanceAs (Decidable (b.final_score ≤ a.final_score))

instance : IsTotal ScoredCV score_ge := ⟨fun a b => le_total b.final_score a.final_score⟩

instance : IsTrans ScoredCV score_ge := ⟨fun _ _ _ h1 h2 => le_trans h2 h1⟩

/-- `CVRanker.rank_from_summary` on the decoded score list: stable sort by
`final_score` descending (Python's `sorted` is stable; a stable descending
sort is modelled by insertion sort along `score_ge`), then attach the
1-based position as `rank`. -/
def rank_from_summary (scores : List ScoredCV) : List (ℕ × ScoredCV) :=
  List.enumFrom 1 (List.insertionSort score_ge scores)

/-! ## Comparator (`comparator.py`) -/

/-- The winner labels of the comparator. -/
inductive Winner where
  | A
  | B
  | Tie
deriving DecidableEq

/-- Exchange the roles of the two compared CVs in a winner label. -/
def Winner.swapAB : Winner → Winner
  | .A => .B
  | .B => .A
  | .Tie => .Tie

/-- The sign-based winner assignment used for `overall_delta` and for each
delta-table row: A when the delta is positive, B when negative, else Tie. -/
def winner_of (d : ℚ) : Winner :=
  if 0 < d then .A else if d < 0 then .B else .Tie

/-- The per-criterion slice of a scoring result the comparator reads:
`score`, `weight`, `weighted_contribution`. -/
structure CriterionEntry where
  score : ℚ
  weight : ℚ
  weighted_contribution : ℚ
deriving DecidableEq

/-- A scoring result as consumed by `CVComparator.compare`: the final score
plus the five fixed criterion entries. -/
structure ScoringLite where
  final_score : ℚ
  education : CriterionEntry
  experience : CriterionEntry
  publications : CriterionEntry
  coherence : CriterionEntry
  awards_other : CriterionEntry
deriving DecidableEq

/-- One value of the `criterion_deltas` mapping built by
`CVComparator._calculate_criterion_deltas`. -/
structure CriterionDelta where
  score_delta : ℚ
  contribution_delta : ℚ
  a_score : ℚ
  b_score : ℚ
  a_contribution : ℚ
  b_contribution : ℚ
deriving DecidableEq

/-- The delta record for one criterion
(`CVComparator._calculate_criterion_deltas` loop body). -/
def calculate_criterion_delta (a b : CriterionEntry) : CriterionDelta where
  score_delta := round4 (a.score - b.score)
  contribution_delta := round4 (a.weighted_contribution - b.weighted_contribution)
  a_score := round4 a.score
  b_score := round4 b.score
  a_contribution := round4 a.weighted_contribution
  b_contribution := round4 b.weighted_contribution

/-- One row of the display table built by
`CVComparator._create_delta_table`. -/
structure DeltaRow where
  criterion : String
  weight : ℚ
  cv_a_score : ℚ
  cv_b_score : ℚ
  score_delta : ℚ
  cv_a_contribution : ℚ
  cv_b_contribution : ℚ
  contribution_delta : ℚ
  winner : Winner
deriving DecidableEq

/-- The delta-table row for one criterion (`label` is the title-cased
criterion name the loop computes for the five fixed criteria). -/
def delta_row (label : String) (a b : CriterionEntry) : DeltaRow where
  criterion := label
  weight := round2 a.weight
  cv_a_score := round4 a.score
  cv_b_score := round4 b.score
  score_delta := round4 (a.score - b.score)
  cv_a_contribution := round4 a.weighted_contribution
  cv_b_contribution := round4 b.weighted_contribution
  contribution_delta := round4 (a.weighted_contribution - b.weighted_contribution)
  winner := winner_of (a.weighted_contribution - b.weighted_contribution)

/-- The `overall_delta` object of a comparison. -/
structure OverallDelta where
  absolute : ℚ
  percentage : ℚ
  winner : Winner
deriving DecidableEq

/-- The slice of `CVComparator.compare`'s output the claims are about. -/
structure ComparisonResult where
  overall_delta : OverallDelta
  education_delta : CriterionDelta
  experience_delta : CriterionDelta
  publications_delta : CriterionDelta
  coherence_delta : CriterionDelta
  awards_other_delta : CriterionDelta
  delta_table : List DeltaRow
deriving DecidableEq

/-- `CVComparator.compare`: overall delta with its sign-based winner, the
five criterion deltas, and the five delta-table rows in the fixed criterion
order. -/
def compare (a b : ScoringLite) : ComparisonResult where
  overall_delta :=
    { absolute := round4 (a.final_score - b.final_score)
      percentage := round2 ((a.final_score - b.final_score) * 100)
      winner := winner_of (a.final_score - b.final_score) }
  education_delta := calculate_criterion_delta a.education b.education
  experience_delta := calculate_criterion_delta a.experience b.experience
  publications_delta := calculate_criterion_delta a.publications b.publications
  coherence_delta := calculate_criterion_delta a.coherence b.coherence
  awards_other_delta := calculate_criterion_delta a.awards_other b.awards_other
  delta_table :=
    [delta_row "Education" a.education b.education,
     delta_row "Experience" a.experience b.experience,
     delta_row "Publications" a.publications b.publications,
     delta_row "Coherence" a.coherence b.coherence,
     delta_row "Awards Other" a.awards_other b.awards_other]

/-! ## Evaluation metrics (`metrics.py`) -/

/-- 0-based position of the first occurrence of `x` in `l` (the rank of an
id in a duplicate-free predicted ranking). -/
def posOf (l : List String) (x : String) : ℕ :=
  match l with
  | [] => 0
  | a :: t => if a = x then 0 else posOf t x + 1

/-- Sequential insertion of `(rank, id)` entries into a lookup, the dict
comprehension `{cv_id: rank for rank, cv_id in enumerate(predicted)}`
(a later duplicate overwrites an earlier one). -/
def rank_map_aux (i : ℕ) (m : String → Option ℕ) : List String → (String → Option ℕ)
  | [] => m
  | a :: l => rank_map_aux (i + 1) (fun y => if y = a then some i else m y) l

/-- The `rank_map` of `PairwiseMetrics.pairwise_accuracy`. -/
def cv_rank_map (predicted : List String) : String → Option ℕ :=
  rank_map_aux 0 (fun _ => none) predicted

/-- `PairwiseMetrics.pairwise_accuracy`: 0.0 for an empty pair list, else
the number of pairs whose ids are both ranked with the better one placed
strictly above, divided by the length of the whole pair list. -/
def pairwise_accuracy (predicted : List String) (pairs : List (String × String)) : ℚ :=
  if pairs = [] then 0
  else
    let rm := cv_rank_map predicted
    let correct := pairs.countP fun pr =>
      match rm pr.1, rm pr.2 with
      | some rb, some rw => rb < rw
      | _, _ => false
    (correct : ℚ) / (pairs.length : ℚ)

/-- Modelled from the spec: pairwise accuracy as the claim states it, with
pairs containing an id absent from the predicted ranking excluded from both
the numerator and the denominator. -/
def spec_pairwise_accuracy (predicted : List String) (pairs : List (String × String)) : ℚ :=
  let evaluable := pairs.filter fun pr => pr.1 ∈ predicted ∧ pr.2 ∈ predicted
  let correct := evaluable.countP fun pr => posOf predicted pr.1 < posOf predicted pr.2
  (correct : ℚ) / (evaluable.length : ℚ)

/-- The descending order on rationals used to sort relevance values. -/
def rat_ge (a b : ℚ) : Prop := b ≤ a

instance : DecidableRel rat_ge := fun a b => inferInstanceAs (Decidable (b ≤ a))

instance : IsTotal ℚ rat_ge := ⟨fun a b => le_total b a⟩

instance : IsTrans ℚ rat_ge := ⟨fun _ _ _ h1 h2 => le_trans h2 h1⟩

instance : IsAntisymm ℚ rat_ge := ⟨fun _ _ h1 h2 => le_antisymm h2 h1⟩

/-- The descending order on (id, relevance) entries by relevance. -/
def entry_ge (a b : String × ℚ) : Prop := b.2 ≤ a.2

instance : DecidableRel entry_ge := fun a b => inferInstanceAs (Decidable (b.2 ≤ a.2))

instance : IsTotal (String × ℚ) entry_ge := ⟨fun a b => le_total b.2 a.2⟩

instance : IsTrans (String × ℚ) entry_ge := ⟨fun _ _ _ h1 h2 => le_trans h2 h1⟩

/-- `relevance_scores.get(cv_id, 0.0)`: the relevance table is a dict,
modelled as an association list with duplicate-free keys. -/
def rel_lookup (table : List (String × ℚ)) (id : String) : ℚ :=
  ((table.find? fun kv => kv.1 = id).map Prod.snd).getD 0

/-- The discounted sum `Σ rel_i / log2(i+1)` over a relevance sequence whose
first element sits at 1-based position `i`. -/
noncomputable def dcg_aux (i : ℕ) : List ℚ → ℝ
  | [] => 0
  | r :: rest => (r : ℝ) / Real.logb 2 ((i : ℝ) + 1) + dcg_aux (i + 1) rest

/-- The ideal ranking for a relevance table: its ids sorted by relevance
descending. -/
def ideal_ranking (table : List (String × ℚ)) : List String :=
  (List.insertionSort entry_ge table).map Prod.fst

/-- `RankingMetrics.ndcg_at_k`: DCG over the predicted top-k relevances,
IDCG over the top-k of the descending-sorted relevance values of the whole
table, DCG/IDCG with a 0 result when IDCG is 0. -/
noncomputable def ndcg_at_k (predicted : List String)
    (table : List (String × ℚ)) (k : ℕ) : ℝ :=
  let dcg := dcg_aux 1 ((predicted.take k).map (rel_lookup table))
  let idcg := dcg_aux 1 ((List.insertionSort rat_ge (table.map Prod.snd)).take k)
  if idcg = 0 then 0 else dcg / idcg

/-! ## Configuration validation (`config_loader.py`) -/

/-- A raw loaded configuration as `ConfigLoader._validate_config` inspects
it: the `weights` section (possibly missing) with its named values, the key
set of the `subweights` section (possibly missing), and presence flags for
the `policies` and `normalization` sections. -/
structure RawConfig where
  weights : Option (List (String × ℚ))
  subweights : Option (List String)
  policies : Bool
  normalization : Bool
deriving DecidableEq

/-- `ConfigLoader._validate_config`: raise when the weight values sum
outside [0.99, 1.01]; then when one of the four required sections is
missing; then when a criterion named in `weights` other than
`awards_other`/`coherence` has no `subweights` entry. -/
def validate_config (c : RawConfig) : Except String Unit :=
  let weights := c.weights.getD []
  let weightSum := (weights.map Prod.snd).sum
  if ¬ (99 / 100 ≤ weightSum ∧ weightSum ≤ 101 / 100) then
    Except.error "Weights must sum to 1.0"
  else if c.weights.isNone then Except.error "Missing required config section: weights"
  else if c.subweights.isNone then Except.error "Missing required config section: subweights"
  else if ¬ c.policies then Except.error "Missing required config section: policies"
  else if ¬ c.normalization then Except.error "Missing required config section: normalization"
  else if (weights.map Prod.fst).any
      (fun k => k ≠ "awards_other" && k ≠ "coherence" && !((c.subweights.getD []).contains k))
    then Except.error "Missing subweights for criterion"
  else Except.ok ()

/-- An example configuration (the code-default weights and sub-weights of
`aggregator.py`/`education_scorer.py` with plausible policy knobs), used to
instantiate claims at concrete inputs. -/
def cfg_default : Config where
  w_education := 3 / 10
  w_experience := 3 / 10
  w_publications := 1 / 4
  w_coherence := 1 / 10
  w_awards_other := 1 / 20
  sw_gpa := 1 / 2
  sw_degree_level := 1 / 5
  sw_university_tier := 3 / 10
  sw_duration := 1 / 2
  sw_domain_match := 3 / 10
  sw_seniority := 1 / 5
  sw_if := 1 / 2
  sw_author_position := 3 / 10
  sw_venue_quality := 1 / 5
  sw_domain_consistency := 3 / 5
  sw_progression := 2 / 5
  phd_bonus := 1 / 10
  masters_bonus := 1 / 20
  first_author_bonus := 1 / 10
  second_author_bonus := 1 / 20
  experience_bonus := 1 / 10
  min_months_experience_for_bonus := 24
  target_domain := "machine learning"
  domain_match_bonus := 1 / 10
  min_domain_consistency := 3 / 5
  max_experience_months := 120
  max_journal_if := 10

/-- An example catalogue resolver that returns 0 for every name (a catalogue
with zero default scores), used to instantiate claims at concrete inputs. -/
def maps_zero : Mappings where
  get_university_tier_score := fun _ => 0
  get_journal_if := fun _ => 0
  get_venue_quality_score := fun _ => 0

/-- An education-only record: one MSc entry with GPA 3.6 on a 4.0 scale. -/
def cv_msc_only : CVRecord where
  education := [⟨"MSc", "Computer Science", "", 18 / 5, 4⟩]
  experience := []
  publications := []
  awards := []

/-- Modelled from the spec: the `if` sub-score as the claim states it — the
mean over ALL entries of the (declared, or when the declared impact factor
is absent, resolved) impact value normalized by the cap. -/
def spec_if_score (cfg : Config) (maps : Mappings) (items : List PublicationItem) : ℚ :=
  if items = [] then 0
  else
    (items.map (fun p =>
      let v := match p.journal_if with
        | some v => v
        | none =>
          if containsStr (strLower p.pubType) "journal" then maps.get_journal_if p.venue
          else maps.get_venue_quality_score p.venue * 10
      normalize_score v cfg.max_journal_if)).sum / (items.length : ℚ)

/-- A publications list with one journal entry declaring IF 8 and one
conference entry resolving to venue quality 0. -/
def pubs_mixed : List PublicationItem :=
  [⟨"p1", "v1", "journal", some 1, some 8, ""⟩,
   ⟨"p2", "v2", "conference", some 1, none, ""⟩]

/-- The validator's rejection condition written declaratively (the amended
claim): weight values summing outside [0.99, 1.01], a missing required
section, or a criterion named in `weights` other than `awards_other` and
`coherence` without a `subweights` entry. -/
def config_invalid_amended (c : RawConfig) : Prop :=
  ¬ (99 / 100 ≤ ((c.weights.getD []).map Prod.snd).sum ∧
      ((c.weights.getD []).map Prod.snd).sum ≤ 101 / 100) ∨
    c.weights = none ∨ c.subweights = none ∨ c.policies = false ∨
    c.normalization = false ∨
    ∃ k ∈ (c.weights.getD []).map Prod.fst,
      k ≠ "awards_other" ∧ k ≠ "coherence" ∧ k ∉ c.subweights.getD []

/-- Modelled from the spec: the invalidity condition as the claim states it,
with sub-weights required for every criterion that defines `sub_scores`,
which includes coherence (only `awards_other` is exempt). -/
def config_invalid_spec (c : RawConfig) : Prop :=
  ¬ (99 / 100 ≤ ((c.weights.getD []).map Prod.snd).sum ∧
      ((c.weights.getD []).map Prod.snd).sum ≤ 101 / 100) ∨
    c.weights = none ∨ c.subweights = none ∨ c.policies = false ∨
    c.normalization = false ∨
    ∃ k ∈ (c.weights.getD []).map Prod.fst,
      k ≠ "awards_other" ∧ k ∉ c.subweights.getD []

/-- A configuration whose weights sum to 1, with all four sections present
and sub-weights for education/experience/publications but NOT for
coherence. -/
def raw_config_no_coherence_subweights : RawConfig where
  weights := some [("education", 3 / 10), ("experience", 3 / 10),
    ("publications", 1 / 4), ("coherence", 1 / 10), ("awards_other", 1 / 20)]
  subweights := some ["education", "experience", "publications"]
  policies := true
  normalization := true

/-- One research-type award whose title contains "excellence". -/
def award_research_excellence : AwardItem :=
  ⟨"Excellence in Research Award", "", "research"⟩

/-- The CV record holding only that award. -/
def cv_one_award : CVRecord where
  education := []
  experience := []
  publications := []
  awards := [award_research_excellence]

/-- Every value of a `sub_scores` mapping lies in [0,1]. -/
def SubScoresBounded (l : List (String × ℚ)) : Prop :=
  ∀ p ∈ l, 0 ≤ p.2 ∧ p.2 ≤ 1

/-- A record with one education entry whose gpa 5.0 exceeds its scale 4.0. -/
def cv_gpa_over : CVRecord where
  education := [⟨"BSc", "", "", 5, 4⟩]
  experience := []
  publications := []
  awards := []

/-! ## Rounding lemmas -/

section Rounding

variable {α : Type} [LinearOrderedField α] [FloorRing α]
  [DecidableRel ((· < ·) : α → α → Prop)]

theorem round_half_even_intCast (z : ℤ) : round_half_even ((z : α)) = z := by
  unfold round_half_even
  rw [Int.fract_intCast, Int.floor_intCast, if_pos (by norm_num : (0 : α) < 1 / 2)]

theorem ceil_eq_floor_add_one_of_fract_ne {x : α} (h : Int.fract x ≠ 0) :
    ⌈x⌉ = ⌊x⌋ + 1 := by
  have h0 : 0 < Int.fract x := lt_of_le_of_ne (Int.fract_nonneg x) (Ne.symm h)
  have h1 : Int.fract x < 1 := Int.fract_lt_one x
  rw [Int.fract] at h0 h1
  refine Int.ceil_eq_iff.2 ⟨?_, ?_⟩
  · push_cast
    linarith
  · push_cast
    linarith

theorem round_half_even_neg (x : α) : round_half_even (-x) = -round_half_even x := by
  by_cases h0 : Int.fract x = 0
  · have hx : x = (⌊x⌋ : α) := by
      rw [Int.fract] at h0
      linarith
    rw [hx, ← Int.cast_neg, round_half_even_intCast, round_half_even_intCast]
  · have hfr0 : 0 < Int.fract x := lt_of_le_of_ne (Int.fract_nonneg x) (Ne.symm h0)
    have hfr1 : Int.fract x < 1 := Int.fract_lt_one x
    have hneg : Int.fract (-x) = 1 - Int.fract x := Int.fract_neg h0
    have hfl : ⌊-x⌋ = -⌊x⌋ - 1 := by
      rw [Int.floor_neg, ceil_eq_floor_add_one_of_fract_ne h0]
      ring
    unfold round_half_even
    rw [hneg, hfl]
    rcases lt_trichotomy (Int.fract x) ((1 : α) / 2) with h | h | h
    · rw [if_neg (by linarith), if_pos (by linarith), if_pos h]
      ring
    · have he1 : ¬ (1 - Int.fract x < 1 / 2) := by linarith
      have he2 : ¬ ((1 : α) / 2 < 1 - Int.fract x) := by linarith
      have he3 : ¬ (Int.fract x < 1 / 2) := by linarith
      have he4 : ¬ ((1 : α) / 2 < Int.fract x) := by linarith
      rw [if_neg he1, if_neg he2, if_neg he3, if_neg he4]
      by_cases hev : Even ⌊x⌋
      · have : ¬ Even (-⌊x⌋ - 1) := by
          rcases hev with ⟨m, hm⟩
          intro ⟨n, hn⟩
          omega
        rw [if_pos hev, if_neg this]
        ring
      · have : Even (-⌊x⌋ - 1) := by
          rcases Int.even_or_odd ⌊x⌋ with he | ⟨m, hm⟩
          · exact absurd he hev
          · exact ⟨-m - 1, by omega⟩
        rw [if_neg hev, if_pos this]
        ring
    · rw [if_pos (show 1 - Int.fract x < 1 / 2 by linarith),
        if_neg (show ¬ (Int.fract x < 1 / 2) by linarith), if_pos h]
      ring

theorem floor_le_round_half_even (x : α) : ⌊x⌋ ≤ round_half_even x := by
  unfold round_half_even
  split_ifs <;> omega

theorem round_half_even_le_ceil (x : α) : round_half_even x ≤ ⌈x⌉ := by
  by_cases h0 : Int.fract x = 0
  · have hx : x = (⌊x⌋ : α) := by
      rw [Int.fract] at h0
      linarith
    rw [hx, round_half_even_intCast, Int.ceil_intCast]
  · have hc : ⌈x⌉ = ⌊x⌋ + 1 := ceil_eq_floor_add_one_of_fract_ne h0
    unfold round_half_even
    split_ifs <;> omega

theorem round4_neg (x : α) : round4 (-x) = -round4 x := by
  unfold round4
  rw [neg_mul, round_half_even_neg]
  push_cast
  ring

theorem round2_neg (x : α) : round2 (-x) = -round2 x := by
  unfold round2
  rw [neg_mul, round_half_even_neg]
  push_cast
  ring

theorem round4_antisymm (x y : α) : round4 (y - x) = -round4 (x - y) := by
  rw [← neg_sub x y, round4_neg]

theorem round2_antisymm (x y : α) : round2 (y - x) = -round2 (x - y) := by
  rw [← neg_sub x y, round2_neg]

theorem round3_mem_unit {x : α} (h0 : 0 ≤ x) (h1 : x ≤ 1) :
    0 ≤ round3 x ∧ round3 x ≤ 1 := by
  unfold round3
  have hf : (0 : ℤ) ≤ ⌊x * 1000⌋ := Int.floor_nonneg.2 (by positivity)
  have hl : (0 : ℤ) ≤ round_half_even (x * 1000) :=
    le_trans hf (floor_le_round_half_even _)
  have hc : ⌈x * 1000⌉ ≤ (1000 : ℤ) := Int.ceil_le.2 (by push_cast; linarith)
  have hu : round_half_even (x * 1000) ≤ (1000 : ℤ) :=
    le_trans (round_half_even_le_ceil _) hc
  constructor
  · have : (0 : α) ≤ ((round_half_even (x * 1000) : ℤ) : α) := by exact_mod_cast hl
    positivity
  · rw [div_le_one (by norm_num : (0 : α) < 1000)]
    exact_mod_cast hu

end Rounding

/-! ## Claim C10: comparator antisymmetry -/

theorem winner_of_antisymm (x y : ℚ) : winner_of (y - x) = (winner_of (x - y)).swapAB := by
  unfold winner_of
  rcases lt_trichotomy 0 (x - y) with h | h | h
  · rw [if_pos h, if_neg (by linarith), if_pos (by linarith)]
    rfl
  · rw [if_neg (by linarith), if_neg (by linarith), if_neg (by linarith),
      if_neg (by linarith)]
    rfl
  · rw [if_pos (show (0:ℚ) < y - x by linarith),
      if_neg (show ¬ ((0:ℚ) < x - y) by linarith), if_pos h]
    rfl

theorem calculate_criterion_delta_antisymm (a b : CriterionEntry) :
    (calculate_criterion_delta b a).score_delta =
        -(calculate_criterion_delta a b).score_delta ∧
      (calculate_criterion_delta b a).contribution_delta =
        -(calculate_criterion_delta a b).contribution_delta := by
  unfold calculate_criterion_delta
  exact ⟨round4_antisymm _ _, round4_antisymm _ _⟩

theorem delta_row_antisymm (s : String) (a b : CriterionEntry) :
    (delta_row s b a).score_delta = -(delta_row s a b).score_delta ∧
      (delta_row s b a).contribution_delta = -(delta_row s a b).contribution_delta ∧
      (delta_row s b a).winner = (delta_row s a b).winner.swapAB := by
  unfold delta_row
  exact ⟨round4_antisymm _ _, round4_antisymm _ _, winner_of_antisymm _ _⟩

/-- C10: the comparator is antisymmetric: swapping the two scoring results
negates `overall_delta.absolute`, negates each of the five criteria's
`score_delta` and `contribution_delta`, and swaps the A/B winner labels
(Tie staying Tie) in `overall_delta` and in every `delta_table` row. -/
theorem compare_antisymm (a b : ScoringLite) :
    (compare b a).overall_delta.absolute = -(compare a b).overall_delta.absolute ∧
    (compare b a).overall_delta.winner = (compare a b).overall_delta.winner.swapAB ∧
    (compare b a).education_delta.score_delta =
      -(compare a b).education_delta.score_delta ∧
    (compare b a).education_delta.contribution_delta =
      -(compare a b).education_delta.contribution_delta ∧
    (compare b a).experience_delta.score_delta =
      -(compare a b).experience_delta.score_delta ∧
    (compare b a).experience_delta.contribution_delta =
      -(compare a b).experience_delta.contribution_delta ∧
    (compare b a).publications_delta.score_delta =
      -(compare a b).publications_delta.score_delta ∧
    (compare b a).publications_delta.contribution_delta =
      -(compare a b).publications_delta.contribution_delta ∧
    (compare b a).coherence_delta.score_delta =
      -(compare a b).coherence_delta.score_delta ∧
    (compare b a).coherence_delta.contribution_delta =
      -(compare a b).coherence_delta.contribution_delta ∧
    (compare b a).awards_other_delta.score_delta =
      -(compare a b).awards_other_delta.score_delta ∧
    (compare b a).awards_other_delta.contribution_delta =
      -(compare a b).awards_other_delta.contribution_delta ∧
    List.Forall₂
      (fun r r' : DeltaRow =>
        r'.score_delta = -r.score_delta ∧ r'.contribution_delta = -r.contribution_delta ∧
          r'.winner = r.winner.swapAB)
      (compare a b).delta_table (compare b a).delta_table := by
  refine ⟨round4_antisymm _ _, winner_of_antisymm _ _,
    (calculate_criterion_delta_antisymm a.education b.education).1,
    (calculate_criterion_delta_antisymm a.education b.education).2,
    (calculate_criterion_delta_antisymm a.experience b.experience).1,
    (calculate_criterion_delta_antisymm a.experience b.experience).2,
    (calculate_criterion_delta_antisymm a.publications b.publications).1,
    (calculate_criterion_delta_antisymm a.publications b.publications).2,
    (calculate_criterion_delta_antisymm a.coherence b.coherence).1,
    (calculate_criterion_delta_antisymm a.coherence b.coherence).2,
    (calculate_criterion_delta_antisymm a.awards_other b.awards_other).1,
    (calculate_criterion_delta_antisymm a.awards_other b.awards_other).2, ?_⟩
  refine List.Forall₂.cons (delta_row_antisymm _ a.education b.education) ?_
  refine List.Forall₂.cons (delta_row_antisymm _ a.experience b.experience) ?_
  refine List.Forall₂.cons (delta_row_antisymm _ a.publications b.publications) ?_
  refine List.Forall₂.cons (delta_row_antisymm _ a.coherence b.coherence) ?_
  exact List.Forall₂.cons (delta_row_antisymm _ a.awards_other b.awards_other)
    List.Forall₂.nil

/-! ## Claim C4: ranker output -/

theorem enumFrom_pairwise {β : Type} {R : β → β → Prop} :
    ∀ (n : ℕ) (l : List β), l.Pairwise R →
      (List.enumFrom n l).Pairwise (fun p q => R p.2 q.2)
  | _, [], _ => by simp
  | n, a :: t, h => by
    rcases List.pairwise_cons.1 h with ⟨ha, ht⟩
    rw [List.enumFrom_cons]
    refine List.pairwise_cons.2 ⟨?_, enumFrom_pairwise (n + 1) t ht⟩
    intro p hp
    have hmem := List.mem_map_of_mem Prod.snd hp
    rw [List.enumFrom_map_snd] at hmem
    exact ha p.2 hmem

theorem filter_insertionSort_score (l : List ScoredCV) (s : ℚ) :
    (List.insertionSort score_ge l).filter (fun c => c.final_score = s) =
      l.filter (fun c => c.final_score = s) := by
  have hsub : (l.filter (fun c => c.final_score = s)).Sublist
      (List.insertionSort score_ge l) := by
    refine List.sublist_insertionSort ?_ (List.filter_sublist l)
    refine List.pairwise_of_forall_mem_list ?_
    intro a ha b hb
    have ha' := (List.mem_filter.1 ha).2
    have hb' := (List.mem_filter.1 hb).2
    simp only [decide_eq_true_eq] at ha' hb'
    unfold score_ge
    rw [ha', hb']
  have hperm : ((List.insertionSort score_ge l).filter (fun c => c.final_score = s)).Perm
      (l.filter (fun c => c.final_score = s)) :=
    (List.perm_insertionSort score_ge l).filter _
  have h2 : (l.filter (fun c => c.final_score = s)).Sublist
      ((List.insertionSort score_ge l).filter (fun c => c.final_score = s)) := by
    have h3 := List.Sublist.filter (fun c : ScoredCV => decide (c.final_score = s)) hsub
    simpa [List.filter_filter] using h3
  exact (h2.eq_of_length hperm.length_eq.symm).symm

/-- C4: `rank_from_summary` stable-sorts by `final_score` descending and
assigns 1-based ranks: the ranks are exactly the dense sequence `1..N`, the
scores are non-increasing across consecutive entries, the ranked CVs are a
permutation of the input, and CVs of equal score keep their input order. -/
theorem ranker_dense_sorted_stable (l : List ScoredCV) :
    ((rank_from_summary l).map Prod.fst = List.range' 1 l.length) ∧
      List.Chain' (fun p q : ℕ × ScoredCV => q.2.final_score ≤ p.2.final_score)
        (rank_from_summary l) ∧
      ((rank_from_summary l).map Prod.snd).Perm l ∧
      ∀ s : ℚ,
        ((rank_from_summary l).map Prod.snd).filter (fun c => c.final_score = s) =
          l.filter (fun c => c.final_score = s) := by
  refine ⟨?_, ?_, ?_, ?_⟩
  · rw [rank_from_summary, List.enumFrom_map_fst, List.length_insertionSort]
  · have hs := List.sorted_insertionSort score_ge l
    exact (enumFrom_pairwise 1 _ hs).chain'
  · rw [rank_from_summary, List.enumFrom_map_snd]
    exact List.perm_insertionSort score_ge l
  · intro s
    rw [rank_from_summary, List.enumFrom_map_snd]
    exact filter_insertionSort_score l s

/-! ## Claim C7: coherence progression sub-score -/

theorem count_progressions_eq_countP : ∀ l : List ExperienceItem,
    count_progressions l =
      (l.zip l.tail).countP
        (fun p => coh_seniority_level p.2.title ≤ coh_seniority_level p.1.title)
  | [] => rfl
  | [_] => rfl
  | x :: y :: rest => by
    rw [count_progressions, count_progressions_eq_countP (y :: rest)]
    simp only [List.tail_cons, List.zip_cons_cons, List.countP_cons]
    by_cases h : coh_seniority_level y.title ≤ coh_seniority_level x.title <;>
      simp [h] <;> omega

/-- C7: with at least two experience entries, the progression sub-score is
the fraction of adjacent consecutive pairs (in the order given, the entry at
the smaller index being the chronologically later one) whose seniority
keyword-level does not drop toward the more recent entry; with fewer than
two entries it is 0.5. -/
theorem progression_score_adjacent_pairs (l : List ExperienceItem) :
    (2 ≤ l.length →
      calculate_progression_score l =
        ((l.zip l.tail).countP
            (fun p => coh_seniority_level p.2.title ≤ coh_seniority_level p.1.title) : ℚ) /
          ((l.length : ℚ) - 1)) ∧
    (l.length < 2 → calculate_progression_score l = 1 / 2) := by
  constructor
  · intro h
    rw [calculate_progression_score, if_neg (not_lt.2 h), count_progressions_eq_countP]
  · intro h
    rw [calculate_progression_score, if_pos h]

/-- Witness for C7 at a concrete three-entry experience list. -/
theorem progression_score_adjacent_pairs_witness :
    calculate_progression_score
        [⟨"Senior Engineer", "", "", none, ""⟩, ⟨"Engineer", "", "", none, ""⟩,
          ⟨"Manager", "", "", none, ""⟩] =
      ((((([⟨"Senior Engineer", "", "", none, ""⟩, ⟨"Engineer", "", "", none, ""⟩,
          ⟨"Manager", "", "", none, ""⟩] : List ExperienceItem).zip
          ([⟨"Engineer", "", "", none, ""⟩, ⟨"Manager", "", "", none, ""⟩] :
            List ExperienceItem)).countP
          (fun p => coh_seniority_level p.2.title ≤ coh_seniority_level p.1.title)) : ℕ) : ℚ) /
        (3 - 1) := by
  have h := (progression_score_adjacent_pairs
    [⟨"Senior Engineer", "", "", none, ""⟩, ⟨"Engineer", "", "", none, ""⟩,
      ⟨"Manager", "", "", none, ""⟩]).1 (by simp)
  simpa using h

/-! ## Claim C2: pairwise accuracy -/

theorem rank_map_aux_not_mem :
    ∀ (l : List String) (i : ℕ) (m : String → Option ℕ) (x : String),
      x ∉ l → rank_map_aux i m l x = m x
  | [], _, _, _, _ => rfl
  | a :: t, i, m, x, hx => by
    rw [rank_map_aux,
      rank_map_aux_not_mem t (i + 1) _ x (fun h => hx (List.mem_cons_of_mem a h))]
    have hxa : x ≠ a := fun h => hx (h ▸ List.mem_cons_self a t)
    simp [hxa]

theorem rank_map_aux_mem :
    ∀ (l : List String) (i : ℕ) (m : String → Option ℕ) (x : String),
      l.Nodup → x ∈ l → rank_map_aux i m l x = some (i + posOf l x)
  | a :: t, i, m, x, hnd, hx => by
    rcases List.nodup_cons.1 hnd with ⟨hat, hndt⟩
    by_cases hxa : x = a
    · subst hxa
      rw [rank_map_aux, rank_map_aux_not_mem t (i + 1) _ x hat]
      simp [posOf]
    · have hxt : x ∈ t := (List.mem_cons.1 hx).resolve_left hxa
      rw [rank_map_aux, rank_map_aux_mem t (i + 1) _ x hndt hxt]
      have hax : ¬ (a = x) := fun h => hxa h.symm
      simp [posOf, hax]
      omega

theorem cv_rank_map_eq (predicted : List String) (h : predicted.Nodup) (x : String) :
    cv_rank_map predicted x =
      if x ∈ predicted then some (posOf predicted x) else none := by
  by_cases hx : x ∈ predicted
  · rw [if_pos hx, cv_rank_map, rank_map_aux_mem predicted 0 _ x h hx, Nat.zero_add]
  · rw [if_neg hx, cv_rank_map, rank_map_aux_not_mem predicted 0 _ x hx]

/-- C2 (amended): for a duplicate-free predicted ranking, pairwise accuracy
is the number of pairs whose ids both appear in the ranking with the better
id placed strictly above, divided by the length of the WHOLE pair list
(pairs with an absent id count in the denominator but never in the
numerator); 0.0 for an empty pair list. -/
theorem pairwise_accuracy_formula (predicted : List String)
    (pairs : List (String × String)) (h : predicted.Nodup) :
    pairwise_accuracy predicted pairs =
      (pairs.countP (fun pr => pr.1 ∈ predicted ∧ pr.2 ∈ predicted ∧
          posOf predicted pr.1 < posOf predicted pr.2) : ℚ) /
        (pairs.length : ℚ) := by
  have key : ∀ pr : String × String,
      (match cv_rank_map predicted pr.1, cv_rank_map predicted pr.2 with
        | some rb, some rw2 => decide (rb < rw2)
        | _, _ => false) =
      decide (pr.1 ∈ predicted ∧ pr.2 ∈ predicted ∧
        posOf predicted pr.1 < posOf predicted pr.2) := by
    intro pr
    rw [cv_rank_map_eq predicted h pr.1, cv_rank_map_eq predicted h pr.2]
    by_cases h1 : pr.1 ∈ predicted <;> by_cases h2 : pr.2 ∈ predicted <;>
      simp [h1, h2]
  by_cases hp : pairs = []
  · subst hp
    simp [pairwise_accuracy]
  · have hcnt : pairs.countP (fun pr =>
        match cv_rank_map predicted pr.1, cv_rank_map predicted pr.2 with
        | some rb, some rw2 => decide (rb < rw2)
        | _, _ => false) =
        pairs.countP (fun pr => pr.1 ∈ predicted ∧ pr.2 ∈ predicted ∧
          posOf predicted pr.1 < posOf predicted pr.2) :=
      List.countP_congr (fun pr _ => by rw [key pr])
    simp only [pairwise_accuracy, if_neg hp]
    rw [hcnt]

/-- Witness for C2 at a concrete ranking and pair list. -/
theorem pairwise_accuracy_formula_witness :
    pairwise_accuracy ["a", "b", "c"] [("a", "c"), ("c", "b")] =
      ((([("a", "c"), ("c", "b")] : List (String × String)).countP
          (fun pr => pr.1 ∈ ["a", "b", "c"] ∧ pr.2 ∈ ["a", "b", "c"] ∧
            posOf ["a", "b", "c"] pr.1 < posOf ["a", "b", "c"] pr.2)) : ℚ) / 2 := by
  have h := pairwise_accuracy_formula ["a", "b", "c"] [("a", "c"), ("c", "b")]
    (by simp)
  simpa using h

/-- C2 counterexample: with predicted ranking ["a","b"] and pairs
[("a","b") evaluable and correct, ("c","d") not evaluable], the code returns
1/2 (denominator 2 = all pairs) while the claim's exclusion-based formula
gives 1/1. -/
theorem pairwise_accuracy_counterexample :
    pairwise_accuracy ["a", "b"] [("a", "b"), ("c", "d")] = 1 / 2 ∧
      spec_pairwise_accuracy ["a", "b"] [("a", "b"), ("c", "d")] = 1 ∧
      (1 / 2 : ℚ) ≠ 1 := by
  refine ⟨?_, ?_, by norm_num⟩
  · have hc : ([("a", "b"), ("c", "d")] : List (String × String)).countP (fun pr =>
        match cv_rank_map ["a", "b"] pr.1, cv_rank_map ["a", "b"] pr.2 with
        | some rb, some rw2 => decide (rb < rw2)
        | _, _ => false) = 1 := by decide
    simp only [pairwise_accuracy]
    rw [if_neg (by decide), hc]
    norm_num
  · have hfil : ([("a", "b"), ("c", "d")] : List (String × String)).filter
        (fun pr => pr.1 ∈ ["a", "b"] ∧ pr.2 ∈ ["a", "b"]) = [("a", "b")] := by decide
    have hcp : ([("a", "b")] : List (String × String)).countP
        (fun pr => posOf ["a", "b"] pr.1 < posOf ["a", "b"] pr.2) = 1 := by decide
    simp only [spec_pairwise_accuracy]
    rw [hfil, hcp]
    norm_num

/-! ## Claim C1: education-only records -/

/-- C1 (amended): for a record with education entries but no experience,
publications or awards, the aggregator's final score is the clamped, rounded
sum of the education score times the education weight AND the coherence
neutral default 0.5 times the coherence weight (experience, publications
and awards contribute 0, but coherence does not). -/
theorem education_only_final_score (cfg : Config) (maps : Mappings) (cv : CVRecord)
    (hexp : cv.experience = []) (hpub : cv.publications = [])
    (hawd : cv.awards = []) :
    aggregate_final_score cfg maps cv =
      round4 (clamp01
        ((education_final_score cfg maps cv : ℝ) * (cfg.w_education : ℝ) +
          (1 / 2 : ℝ) * (cfg.w_coherence : ℝ))) := by
  unfold aggregate_final_score
  rw [experience_final_score, if_pos hexp, publication_final_score, if_pos hpub,
    coherence_final_score, if_pos hexp, awards_final_score, if_pos hawd]
  push_cast
  ring_nf

theorem education_final_score_msc_only :
    education_final_score cfg_default maps_zero cv_msc_only = 3 / 5 := by
  have hmsc : containsStr (strLower "MSc") "msc" = true := by decide
  have hphd : containsStr (strLower "MSc") "phd" = false := by decide
  have hdoc : containsStr (strLower "MSc") "doctorate" = false := by decide
  have hlvl : get_degree_level_score "MSc" = 2 := by decide
  norm_num [education_final_score, cv_msc_only, calculate_gpa_score,
    calculate_degree_score, calculate_university_score, apply_bonuses,
    clamp01, cfg_default, maps_zero, hlvl, hmsc, hphd, hdoc, max_def, min_def]

theorem round4_eq_of_mul_eq_intCast {α : Type} [LinearOrderedField α] [FloorRing α]
    [DecidableRel ((· < ·) : α → α → Prop)] {x : α} {n : ℤ}
    (h : x * 10000 = (n : α)) : round4 x = (n : α) / 10000 := by
  unfold round4
  rw [h, round_half_even_intCast]

/-- C1 counterexample: for the education-only MSc record under the example
configuration, the aggregator's final score is 0.23 (education contribution
0.18 plus the coherence neutral default 0.5 × 0.1), not the claimed
education_score × education_weight = 0.18. -/
theorem education_only_final_score_counterexample :
    aggregate_final_score cfg_default maps_zero cv_msc_only = 23 / 100 ∧
      (education_final_score cfg_default maps_zero cv_msc_only : ℝ) *
        (cfg_default.w_education : ℝ) = 9 / 50 ∧
      (23 / 100 : ℝ) ≠ 9 / 50 := by
  refine ⟨?_, ?_, by norm_num⟩
  · unfold aggregate_final_score
    rw [education_final_score_msc_only,
      show experience_final_score cfg_default cv_msc_only = 0 from by
        rw [experience_final_score,
          if_pos (show cv_msc_only.experience = [] from rfl)],
      show publication_final_score cfg_default maps_zero cv_msc_only = 0 from by
        rw [publication_final_score,
          if_pos (show cv_msc_only.publications = [] from rfl)],
      show coherence_final_score cfg_default cv_msc_only = 1 / 2 from by
        rw [coherence_final_score,
          if_pos (show cv_msc_only.experience = [] from rfl)],
      show awards_final_score cv_msc_only = 0 from by
        rw [awards_final_score, if_pos (show cv_msc_only.awards = [] from rfl)]]
    norm_num [cfg_default, clamp01, max_def, min_def]
    rw [round4_eq_of_mul_eq_intCast (show (23 / 100 : ℝ) * 10000 = ((2300 : ℤ) : ℝ)
      by norm_num)]
    norm_num
  · rw [education_final_score_msc_only]
    norm_num [cfg_default]

/-- Witness for C1 (amended) at the education-only MSc record. -/
theorem education_only_final_score_witness :
    aggregate_final_score cfg_default maps_zero cv_msc_only =
      round4 (clamp01
        ((education_final_score cfg_default maps_zero cv_msc_only : ℝ) *
            (cfg_default.w_education : ℝ) +
          (1 / 2 : ℝ) * (cfg_default.w_coherence : ℝ))) :=
  education_only_final_score cfg_default maps_zero cv_msc_only rfl rfl rfl

/-! ## Claim C5: publications `if` sub-score -/

theorem if_score_foldl_eq (cfg : Config) (maps : Mappings) :
    ∀ (items : List PublicationItem) (acc : ℚ × ℕ),
      items.foldl
          (fun (acc : ℚ × ℕ) p =>
            let v := resolve_if_value maps p
            if v ≠ 0 then (acc.1 + normalize_score v cfg.max_journal_if, acc.2 + 1)
            else acc)
          acc =
        (acc.1 +
            (((items.map (resolve_if_value maps)).filter (fun v => v ≠ 0)).map
              (fun v => normalize_score v cfg.max_journal_if)).sum,
          acc.2 + ((items.map (resolve_if_value maps)).filter (fun v => v ≠ 0)).length)
  | [], acc => by simp
  | p :: t, acc => by
    rw [List.foldl_cons, if_score_foldl_eq cfg maps t, List.map_cons, List.filter_cons]
    by_cases hv : resolve_if_value maps p = 0
    · simp [hv]
    · simp only [hv, ne_eq, not_false_eq_true, decide_True, if_true,
        List.map_cons, List.sum_cons, List.length_cons]
      refine Prod.ext ?_ ?_
      · simp
        ring
      · simp
        omega

/-- C5 (amended): the publications `if` sub-score is the mean of the
normalized resolved impact values over ONLY the entries whose resolved value
is truthy (nonzero): an entry whose declared impact factor is 0 falls back
to the catalogue lookup, and an entry whose resolved value is 0 is excluded
from both the sum and the count; the sub-score is 0 when no entry has a
nonzero resolved value. -/
theorem if_score_mean_over_truthy (cfg : Config) (maps : Mappings)
    (items : List PublicationItem) :
    calculate_if_score cfg maps items =
      if ((items.map (resolve_if_value maps)).filter (fun v => v ≠ 0)) = [] then 0
      else
        ((((items.map (resolve_if_value maps)).filter (fun v => v ≠ 0)).map
            (fun v => normalize_score v cfg.max_journal_if)).sum) /
          ((((items.map (resolve_if_value maps)).filter (fun v => v ≠ 0)).length : ℕ) : ℚ) := by
  by_cases hi : items = []
  · subst hi
    simp [calculate_if_score]
  · simp only [calculate_if_score, if_neg hi]
    rw [if_score_foldl_eq cfg maps items (0, 0)]
    simp only [zero_add]
    by_cases hf : ((items.map (resolve_if_value maps)).filter (fun v => v ≠ 0)) = []
    · rw [if_pos hf, hf]
      simp
    · rw [if_neg hf, if_pos (List.length_pos.2 hf)]

/-- C5 counterexample: the code's `if` sub-score for `pubs_mixed` is 4/5
(the zero-resolving conference entry is skipped from both sum and count),
while the claim's mean over all entries is 2/5. -/
theorem if_score_counterexample :
    calculate_if_score cfg_default maps_zero pubs_mixed = 4 / 5 ∧
      spec_if_score cfg_default maps_zero pubs_mixed = 2 / 5 ∧
      (4 / 5 : ℚ) ≠ 2 / 5 := by
  have hconf : containsStr (strLower "conference") "journal" = false := by decide
  refine ⟨?_, ?_, by norm_num⟩
  · norm_num [calculate_if_score, pubs_mixed, resolve_if_value, normalize_score,
      cfg_default, maps_zero, hconf, min_def]
    simp
  · norm_num [spec_if_score, pubs_mixed, resolve_if_value, normalize_score,
      cfg_default, maps_zero, hconf, min_def]
    simp

/-! ## Claim C6: configuration validation -/

/-- C6 (amended): configuration validation raises an error if and only if
the weight sum is outside 1.0±0.01, a required section (weights, subweights,
policies, normalization) is missing, or the sub-weights are missing for a
criterion named in `weights` OTHER than `awards_other` and `coherence` (the
validator exempts coherence even though the coherence scorer defines
sub_scores). -/
theorem contains_iff_mem_str (l : List String) (k : String) :
    l.contains k = true ↔ k ∈ l := by
  simp [List.contains, List.elem_iff]

theorem validate_config_iff (c : RawConfig) :
    validate_config c ≠ Except.ok () ↔ config_invalid_amended c := by
  have herr : ∀ s : String, (Except.error s : Except String Unit) ≠ Except.ok () :=
    fun s h => Except.noConfusion h
  unfold validate_config config_invalid_amended
  by_cases h1 : ¬ (99 / 100 ≤ ((c.weights.getD []).map Prod.snd).sum ∧
      ((c.weights.getD []).map Prod.snd).sum ≤ 101 / 100)
  · rw [if_pos h1]
    exact ⟨fun _ => Or.inl h1, fun _ => herr _⟩
  · rw [if_neg h1, not_not] at *
    by_cases h2 : c.weights.isNone = true
    · rw [if_pos h2]
      exact ⟨fun _ => Or.inr (Or.inl (Option.isNone_iff_eq_none.1 h2)), fun _ => herr _⟩
    · rw [if_neg h2]
      by_cases h3 : c.subweights.isNone = true
      · rw [if_pos h3]
        exact ⟨fun _ => Or.inr (Or.inr (Or.inl (Option.isNone_iff_eq_none.1 h3))),
          fun _ => herr _⟩
      · rw [if_neg h3]
        by_cases h4 : ¬ (c.policies = true)
        · rw [if_pos h4]
          exact ⟨fun _ => Or.inr (Or.inr (Or.inr (Or.inl (Bool.not_eq_true _ ▸
            Bool.eq_false_iff.2 h4)))), fun _ => herr _⟩
        · rw [if_neg h4, not_not] at *
          by_cases h5 : ¬ (c.normalization = true)
          · rw [if_pos h5]
            exact ⟨fun _ => Or.inr (Or.inr (Or.inr (Or.inr (Or.inl (Bool.not_eq_true _ ▸
              Bool.eq_false_iff.2 h5))))), fun _ => herr _⟩
          · rw [if_neg h5, not_not] at *
            by_cases h6 : ((c.weights.getD []).map Prod.fst).any
                (fun k => k ≠ "awards_other" && k ≠ "coherence" &&
                  !((c.subweights.getD []).contains k)) = true
            · rw [if_pos h6]
              refine ⟨fun _ => Or.inr (Or.inr (Or.inr (Or.inr (Or.inr ?_)))),
                fun _ => herr _⟩
              rcases List.any_eq_true.1 h6 with ⟨k, hk, hcond⟩
              rw [Bool.and_eq_true, Bool.and_eq_true, Bool.not_eq_true'] at hcond
              obtain ⟨⟨ha, hb⟩, hc⟩ := hcond
              refine ⟨k, hk, of_decide_eq_true ha, of_decide_eq_true hb,
                fun hmem => ?_⟩
              rw [(contains_iff_mem_str _ _).2 hmem] at hc
              cases hc
            · rw [if_neg h6]
              simp only [ne_eq, not_true_eq_false, false_iff]
              rintro (h | h | h | h | h | ⟨k, hk, hk1, hk2, hk3⟩)
              · exact h h1
              · refine h2 ?_
                rw [h]
                rfl
              · refine h3 ?_
                rw [h]
                rfl
              · rw [h] at h4
                simp at h4
              · rw [h] at h5
                simp at h5
              · refine h6 (List.any_eq_true.2 ⟨k, hk, ?_⟩)
                rw [Bool.and_eq_true, Bool.and_eq_true, Bool.not_eq_true']
                exact ⟨⟨decide_eq_true hk1, decide_eq_true hk2⟩,
                  Bool.eq_false_iff.2
                    (fun hcon => hk3 ((contains_iff_mem_str _ _).1 hcon))⟩

/-- C6 counterexample: the loader accepts a configuration with no
sub-weights for coherence, even though coherence defines `sub_scores`, so
"raises iff invalid (including missing coherence sub-weights)" is false. -/
theorem validate_config_counterexample :
    validate_config raw_config_no_coherence_subweights = Except.ok () ∧
      config_invalid_spec raw_config_no_coherence_subweights := by
  constructor
  · rw [validate_config]
    rw [if_neg (by norm_num [raw_config_no_coherence_subweights])]
    rw [if_neg (by decide), if_neg (by decide), if_neg (by decide), if_neg (by decide)]
    rw [if_neg (by decide)]
  · refine Or.inr (Or.inr (Or.inr (Or.inr (Or.inr
      ⟨"coherence", ?_, by decide, by decide⟩))))
    simp [raw_config_no_coherence_subweights]

/-! ## Claim C8: nDCG of the ideal ranking -/

theorem rel_lookup_of_mem :
    ∀ (table : List (String × ℚ)), (table.map Prod.fst).Nodup →
      ∀ e ∈ table, rel_lookup table e.1 = e.2
  | [], _, _, he => absurd he (List.not_mem_nil _)
  | a :: t, hnd, e, he => by
    rw [List.map_cons, List.nodup_cons] at hnd
    rcases List.mem_cons.1 he with rfl | het
    · rw [rel_lookup, List.find?_cons]
      simp
    · have hne : ¬ (a.1 = e.1) := fun h =>
        hnd.1 (h ▸ List.mem_map_of_mem Prod.fst het)
      rw [rel_lookup, List.find?_cons]
      simp only [hne, decide_False]
      exact rel_lookup_of_mem t hnd.2 e het

theorem map_snd_insertionSort (table : List (String × ℚ)) :
    (List.insertionSort entry_ge table).map Prod.snd =
      List.insertionSort rat_ge (table.map Prod.snd) := by
  refine List.eq_of_perm_of_sorted (r := rat_ge) ?_ ?_ ?_
  · exact ((List.perm_insertionSort entry_ge table).map Prod.snd).trans
      (List.perm_insertionSort rat_ge (table.map Prod.snd)).symm
  · exact List.Pairwise.map Prod.snd (fun _ _ h => h)
      (List.sorted_insertionSort entry_ge table)
  · exact List.sorted_insertionSort rat_ge _

theorem map_rel_lookup_ideal (table : List (String × ℚ))
    (hnd : (table.map Prod.fst).Nodup) :
    (ideal_ranking table).map (rel_lookup table) =
      List.insertionSort rat_ge (table.map Prod.snd) := by
  rw [ideal_ranking, List.map_map]
  have hcg : List.map (rel_lookup table ∘ Prod.fst)
      (List.insertionSort entry_ge table) =
      List.map Prod.snd (List.insertionSort entry_ge table) :=
    List.map_congr_left (fun e he =>
      rel_lookup_of_mem table hnd e ((List.mem_insertionSort entry_ge).1 he))
  rw [hcg]
  exact map_snd_insertionSort table

/-- C8 (amended): for a relevance table with duplicate-free ids, nDCG@k of
the predicted ranking that equals the ideal ranking (ids sorted by relevance
descending) is 1.0 whenever the ideal top-k discounted sum (IDCG) is
nonzero; when IDCG is 0 the result is 0 (so a table of all-zero relevance
yields 0, not 1). -/
theorem ndcg_ideal_ranking (table : List (String × ℚ)) (k : ℕ)
    (hnd : (table.map Prod.fst).Nodup) :
    (dcg_aux 1 ((List.insertionSort rat_ge (table.map Prod.snd)).take k) ≠ 0 →
      ndcg_at_k (ideal_ranking table) table k = 1) ∧
    (dcg_aux 1 ((List.insertionSort rat_ge (table.map Prod.snd)).take k) = 0 →
      ndcg_at_k (ideal_ranking table) table k = 0) := by
  have hdcg : ((ideal_ranking table).take k).map (rel_lookup table) =
      (List.insertionSort rat_ge (table.map Prod.snd)).take k := by
    rw [List.map_take, map_rel_lookup_ideal table hnd]
  constructor
  · intro h
    simp only [ndcg_at_k]
    rw [hdcg, if_neg h, div_self h]
  · intro h
    simp only [ndcg_at_k]
    rw [hdcg, if_pos h]

/-- C8 counterexample: for the one-entry relevance table {"a": 0} and k = 1,
the predicted ranking ["a"] IS the ideal ranking, yet nDCG@1 is 0 (IDCG is
0), not 1.0 as the claim's first sentence states unconditionally. -/
theorem ndcg_ideal_counterexample :
    ndcg_at_k (ideal_ranking [("a", 0)]) [("a", 0)] 1 = 0 ∧
      ideal_ranking [("a", 0)] = ["a"] ∧ (0 : ℝ) ≠ 1 := by
  refine ⟨?_, ?_, by norm_num⟩
  · simp only [ndcg_at_k, ideal_ranking]
    norm_num [List.insertionSort, List.orderedInsert, dcg_aux, rel_lookup,
      List.find?]
  · simp [ideal_ranking, List.insertionSort, List.orderedInsert]

/-- Witness for C8 (amended) at the one-entry table {"a": 1} with k = 1. -/
theorem ndcg_ideal_ranking_witness :
    ndcg_at_k (ideal_ranking [("a", 1)]) [("a", 1)] 1 = 1 := by
  refine (ndcg_ideal_ranking [("a", 1)] 1 (by simp)).1 ?_
  have hs : List.insertionSort rat_ge (([("a", (1 : ℚ))]).map Prod.snd) = [1] := by
    simp [List.insertionSort, List.orderedInsert]
  rw [hs]
  simp [dcg_aux]
  norm_num

/-! ## Claim C9: awards scenario -/

/-- C9: for EVERY awards list containing exactly one award whose type
contains "research" and whose title contains "excellence", with no
national/international keyword in the type and no prestigious-issuer keyword
in the issuer, the per-award score is 0.6 + 0.2 = 0.8 and the awards
criterion score is ln(1.8)/ln(2.5), which lies between 0.64 and 0.65
(≈ 0.645 within 0.005). -/
theorem awards_research_excellence_scenario (a : AwardItem) (cv : CVRecord)
    (hres : containsStr (strLower a.awardType) "research" = true)
    (hexc : containsStr (strLower a.title) "excellence" = true)
    (hnat : (["national", "international"].any
      fun k => containsStr (strLower a.awardType) k) = false)
    (hiss : (["ieee", "acm", "google", "microsoft", "amazon", "national",
      "international", "government"].any
      fun k => containsStr (strLower a.issuer) k) = false)
    (hawd : cv.awards = [a]) :
    per_award_score a = 4 / 5 ∧
      awards_final_score cv = Real.log 1.8 / Real.log 2.5 ∧
      (0.64 : ℝ) ≤ Real.log 1.8 / Real.log 2.5 ∧
      Real.log 1.8 / Real.log 2.5 ≤ (0.65 : ℝ) := by
  have htype : (["research", "academic", "professional"].any
      fun k => containsStr (strLower a.awardType) k) = true := by
    simp [List.any_cons, hres]
  have htitle : (["gold", "medal", "best", "outstanding", "excellence", "dean's list",
      "honors", "scholarship", "fellowship", "distinguished", "achievement",
      "recognition"].any
      fun k => containsStr (strLower a.title) k) = true :=
    List.any_eq_true.2 ⟨"excellence", by simp, hexc⟩
  have hper : per_award_score a = 4 / 5 := by
    norm_num [per_award_score, htype, hnat, htitle, hiss, min_def]
  have hlogpos : (0 : ℝ) < Real.log 2.5 := Real.log_pos (by norm_num)
  have hlogpos18 : (0 : ℝ) < Real.log 1.8 := Real.log_pos (by norm_num)
  have hlt : Real.log 1.8 < Real.log 2.5 :=
    Real.log_lt_log (by norm_num) (by norm_num)
  refine ⟨hper, ?_, ?_, ?_⟩
  · rw [awards_final_score,
      if_neg (show ¬ cv.awards = [] by rw [hawd]; simp),
      calculate_awards_score,
      if_neg (show ¬ cv.awards = [] by rw [hawd]; simp)]
    have hsum : (((cv.awards.map per_award_score).sum : ℚ) : ℝ) = 4 / 5 := by
      rw [hawd]
      simp [hper]
    rw [show (1 : ℝ) + (((cv.awards.map per_award_score).sum : ℚ) : ℝ) =
        1.8 by rw [hsum]; norm_num,
      show (1 : ℝ) + (cv.awards.length : ℝ) * (3 / 2) = 2.5 by
        rw [hawd]; norm_num]
    have hdiv1 : Real.log 1.8 / Real.log 2.5 ≤ 1 :=
      le_of_lt ((div_lt_one hlogpos).2 hlt)
    have hdiv0 : (0 : ℝ) ≤ Real.log 1.8 / Real.log 2.5 :=
      div_nonneg hlogpos18.le hlogpos.le
    rw [clamp01, min_eq_right hdiv1, min_eq_right hdiv1, max_eq_right hdiv0]
  · have hp : (2.5 : ℝ) ^ (16 : ℕ) ≤ (1.8 : ℝ) ^ (25 : ℕ) := by norm_num
    have hl := Real.log_le_log (by positivity) hp
    rw [Real.log_pow, Real.log_pow] at hl
    rw [le_div_iff hlogpos]
    push_cast at hl
    linarith
  · have hp : (1.8 : ℝ) ^ (20 : ℕ) ≤ (2.5 : ℝ) ^ (13 : ℕ) := by norm_num
    have hl := Real.log_le_log (by positivity) hp
    rw [Real.log_pow, Real.log_pow] at hl
    rw [div_le_iff hlogpos]
    push_cast at hl
    linarith

/-- Witness for C9 at the concrete research/excellence award. -/
theorem awards_research_excellence_scenario_witness :
    per_award_score award_research_excellence = 4 / 5 ∧
      awards_final_score cv_one_award = Real.log 1.8 / Real.log 2.5 ∧
      (0.64 : ℝ) ≤ Real.log 1.8 / Real.log 2.5 ∧
      Real.log 1.8 / Real.log 2.5 ≤ (0.65 : ℝ) :=
  awards_research_excellence_scenario award_research_excellence cv_one_award
    (by decide) (by decide) (by decide) (by decide) rfl

/-! ## Claim C3: sub-score bounds -/

theorem foldl_preserve_unit {β : Type} (f : ℚ → β → ℚ) :
    ∀ (l : List β),
      (∀ acc, 0 ≤ acc → acc ≤ 1 → ∀ e ∈ l, 0 ≤ f acc e ∧ f acc e ≤ 1) →
      ∀ init, 0 ≤ init → init ≤ 1 → 0 ≤ l.foldl f init ∧ l.foldl f init ≤ 1
  | [], _, init, h0, h1 => ⟨h0, h1⟩
  | a :: t, h, init, h0, h1 => by
    rw [List.foldl_cons]
    have hfa := h init h0 h1 a (List.mem_cons_self a t)
    exact foldl_preserve_unit f t
      (fun acc ha0 ha1 e he => h acc ha0 ha1 e (List.mem_cons_of_mem a he))
      (f init a) hfa.1 hfa.2

theorem foldl_max_le_of_le {β : Type} (g : β → ℕ) :
    ∀ (l : List β) (B init : ℕ), (∀ e ∈ l, g e ≤ B) → init ≤ B →
      l.foldl (fun acc e => max acc (g e)) init ≤ B
  | [], _, _, _, hi => hi
  | a :: t, B, init, h, hi => by
    rw [List.foldl_cons]
    exact foldl_max_le_of_le g t B _
      (fun e he => h e (List.mem_cons_of_mem a he))
      (max_le hi (h a (List.mem_cons_self a t)))

theorem normalize_score_unit (v m : ℚ) (hv : 0 ≤ v) (hm : 0 ≤ m) :
    0 ≤ normalize_score v m ∧ normalize_score v m ≤ 1 := by
  unfold normalize_score
  by_cases h : m = 0
  · rw [if_pos h]
    norm_num
  · rw [if_neg h]
    have hm' : 0 < m := lt_of_le_of_ne hm (Ne.symm h)
    exact ⟨le_min (by norm_num) (div_nonneg hv hm), min_le_left _ _⟩

theorem mean_unit (l : List ℚ) (h : ∀ x ∈ l, 0 ≤ x ∧ x ≤ 1) :
    0 ≤ l.sum / (l.length : ℚ) ∧ l.sum / (l.length : ℚ) ≤ 1 := by
  by_cases hl : l = []
  · subst hl
    norm_num
  · have hlen : (0 : ℚ) < (l.length : ℚ) := by
      exact_mod_cast List.length_pos.2 hl
    have hsum0 : 0 ≤ l.sum := List.sum_nonneg (fun x hx => (h x hx).1)
    have hsum1 : l.sum ≤ (l.length : ℚ) := by
      have := List.sum_le_card_nsmul l 1 (fun x hx => (h x hx).2)
      simpa [nsmul_eq_mul] using this
    exact ⟨div_nonneg hsum0 hlen.le, (div_le_one hlen).2 hsum1⟩

theorem get_degree_level_score_bounds (s : String) :
    1 ≤ get_degree_level_score s ∧ get_degree_level_score s ≤ 3 := by
  simp only [get_degree_level_score]
  split_ifs <;> omega

theorem exp_seniority_level_bounds (s : String) :
    1 ≤ exp_seniority_level s ∧ exp_seniority_level s ≤ 3 := by
  simp only [exp_seniority_level]
  split_ifs <;> omega

theorem count_progressions_le : ∀ l : List ExperienceItem,
    count_progressions l ≤ l.length - 1
  | [] => by simp [count_progressions]
  | [_] => by simp [count_progressions]
  | x :: y :: rest => by
    have ih := count_progressions_le (y :: rest)
    rw [count_progressions]
    simp only [List.length_cons] at *
    split_ifs <;> omega

theorem calculate_gpa_score_unit (l : List EducationItem)
    (hg : ∀ e ∈ l, e.gpa ≤ e.scale) :
    0 ≤ calculate_gpa_score l ∧ calculate_gpa_score l ≤ 1 := by
  refine foldl_preserve_unit _ l ?_ 0 le_rfl zero_le_one
  intro acc h0 h1 e he
  by_cases hc : e.gpa ≠ 0 ∧ e.scale ≠ 0 ∧ 0 < e.scale
  · rw [if_pos hc]
    exact ⟨le_trans h0 (le_max_left _ _),
      max_le h1 ((div_le_one hc.2.2).2 (hg e he))⟩
  · rw [if_neg hc]
    exact ⟨h0, h1⟩

theorem calculate_degree_score_unit (l : List EducationItem) :
    0 ≤ calculate_degree_score l ∧ calculate_degree_score l ≤ 1 := by
  unfold calculate_degree_score
  by_cases h : 0 < l.foldl (fun acc e => max acc (get_degree_level_score e.degree)) 0
  · rw [if_pos h]
    have hle : l.foldl (fun acc e => max acc (get_degree_level_score e.degree)) 0 ≤ 3 :=
      foldl_max_le_of_le _ l 3 0
        (fun e _ => (get_degree_level_score_bounds e.degree).2) (by omega)
    have h1 : (1 : ℚ) ≤
        ((l.foldl (fun acc e => max acc (get_degree_level_score e.degree)) 0 : ℕ) : ℚ) := by
      exact_mod_cast h
    have h3 : ((l.foldl (fun acc e => max acc (get_degree_level_score e.degree)) 0 : ℕ) : ℚ) ≤
        3 := by
      exact_mod_cast hle
    constructor
    · apply div_nonneg _ (by norm_num)
      linarith
    · rw [div_le_one (by norm_num : (0:ℚ) < 2)]
      linarith
  · rw [if_neg h]
    norm_num

theorem calculate_university_score_unit (maps : Mappings) (l : List EducationItem)
    (ht : ∀ s, 0 ≤ maps.get_university_tier_score s ∧
      maps.get_university_tier_score s ≤ 1) :
    0 ≤ calculate_university_score maps l ∧ calculate_university_score maps l ≤ 1 := by
  refine foldl_preserve_unit _ l ?_ 0 le_rfl zero_le_one
  intro acc h0 h1 e _
  exact ⟨le_trans h0 (le_max_left _ _), max_le h1 (ht e.university).2⟩

theorem calculate_duration_score_unit (cfg : Config) (l : List ExperienceItem)
    (hm : 0 ≤ cfg.max_experience_months) :
    0 ≤ calculate_duration_score cfg l ∧ calculate_duration_score cfg l ≤ 1 :=
  normalize_score_unit _ _ (Nat.cast_nonneg _) hm

theorem calculate_domain_score_unit (cfg : Config) (l : List ExperienceItem)
    (hb : 0 ≤ cfg.domain_match_bonus) :
    0 ≤ calculate_domain_score cfg l ∧ calculate_domain_score cfg l ≤ 1 := by
  simp only [calculate_domain_score]
  by_cases ht : cfg.target_domain = ""
  · rw [if_pos ht]
    norm_num
  · rw [if_neg ht]
    by_cases hl : l.length = 0
    · rw [if_pos hl]
      norm_num
    · rw [if_neg hl]
      have hlen : (0 : ℚ) < (l.length : ℚ) := by
        have : 0 < l.length := Nat.pos_of_ne_zero hl
        exact_mod_cast this
      have hr0 : (0 : ℚ) ≤ (l.countP
          (fun e => containsStr (strLower e.domain) (strLower cfg.target_domain)) : ℚ) /
          (l.length : ℚ) :=
        div_nonneg (Nat.cast_nonneg _) hlen.le
      have hr1 : ((l.countP
          (fun e => containsStr (strLower e.domain) (strLower cfg.target_domain)) : ℚ)) /
          (l.length : ℚ) ≤ 1 := by
        rw [div_le_one hlen]
        exact_mod_cast List.countP_le_length _
      split_ifs with hge
      · exact ⟨le_min (by norm_num) (by linarith), min_le_left _ _⟩
      · exact ⟨hr0, hr1⟩

theorem calculate_seniority_score_unit (l : List ExperienceItem) :
    0 ≤ calculate_seniority_score l ∧ calculate_seniority_score l ≤ 1 := by
  unfold calculate_seniority_score
  by_cases h : 0 < l.foldl (fun acc e => max acc (exp_seniority_level e.title)) 0
  · rw [if_pos h]
    have hle : l.foldl (fun acc e => max acc (exp_seniority_level e.title)) 0 ≤ 3 :=
      foldl_max_le_of_le _ l 3 0
        (fun e _ => (exp_seniority_level_bounds e.title).2) (by omega)
    have h1 : (1 : ℚ) ≤
        ((l.foldl (fun acc e => max acc (exp_seniority_level e.title)) 0 : ℕ) : ℚ) := by
      exact_mod_cast h
    have h3 : ((l.foldl (fun acc e => max acc (exp_seniority_level e.title)) 0 : ℕ) : ℚ) ≤
        3 := by
      exact_mod_cast hle
    constructor
    · apply div_nonneg _ (by norm_num)
      linarith
    · rw [div_le_one (by norm_num : (0:ℚ) < 2)]
      linarith
  · rw [if_neg h]
    norm_num

theorem resolve_if_value_nonneg (maps : Mappings) (p : PublicationItem)
    (hj : ∀ s, 0 ≤ maps.get_journal_if s)
    (hv : ∀ s, 0 ≤ maps.get_venue_quality_score s)
    (hd : ∀ v, p.journal_if = some v → 0 ≤ v) :
    0 ≤ resolve_if_value maps p := by
  have hfb : 0 ≤ (if containsStr (strLower p.pubType) "journal" = true then
      maps.get_journal_if p.venue else maps.get_venue_quality_score p.venue * 10) := by
    split_ifs
    · exact hj _
    · exact mul_nonneg (hv _) (by norm_num)
  unfold resolve_if_value
  cases hjf : p.journal_if with
  | none => exact hfb
  | some v =>
    show 0 ≤ if v ≠ 0 then v
      else (if containsStr (strLower p.pubType) "journal" = true then
        maps.get_journal_if p.venue else maps.get_venue_quality_score p.venue * 10)
    by_cases hv0 : v ≠ 0
    · rw [if_pos hv0]
      exact hd v hjf
    · rw [if_neg hv0]
      exact hfb

theorem calculate_if_score_unit (cfg : Config) (maps : Mappings)
    (items : List PublicationItem)
    (hj : ∀ s, 0 ≤ maps.get_journal_if s)
    (hv : ∀ s, 0 ≤ maps.get_venue_quality_score s)
    (hd : ∀ p ∈ items, ∀ v, p.journal_if = some v → 0 ≤ v)
    (hmx : 0 ≤ cfg.max_journal_if) :
    0 ≤ calculate_if_score cfg maps items ∧ calculate_if_score cfg maps items ≤ 1 := by
  rw [if_score_mean_over_truthy]
  by_cases hf : ((items.map (resolve_if_value maps)).filter (fun v => v ≠ 0)) = []
  · rw [if_pos hf]
    norm_num
  · rw [if_neg hf]
    have hmem : ∀ x ∈ ((items.map (resolve_if_value maps)).filter (fun v => v ≠ 0)).map
        (fun v => normalize_score v cfg.max_journal_if), 0 ≤ x ∧ x ≤ 1 := by
      intro x hx
      rcases List.mem_map.1 hx with ⟨v, hvmem, rfl⟩
      have hvm := (List.mem_filter.1 hvmem).1
      rcases List.mem_map.1 hvm with ⟨p, hp, rfl⟩
      exact normalize_score_unit _ _
        (resolve_if_value_nonneg maps p hj hv (hd p hp)) hmx
    have := mean_unit _ hmem
    rwa [List.length_map] at this

theorem author_position_value_unit (cfg : Config) (p : PublicationItem)
    (h1 : 0 ≤ cfg.first_author_bonus) (h2 : 0 ≤ cfg.second_author_bonus) :
    0 ≤ author_position_value cfg p ∧ author_position_value cfg p ≤ 1 := by
  simp only [author_position_value]
  split_ifs with hp1 hp2 hp5
  · exact ⟨le_min (by norm_num) (by linarith), min_le_left _ _⟩
  · exact ⟨le_min (by norm_num) (by linarith), min_le_left _ _⟩
  · have hc5 : ((p.author_position.getD 999 : ℕ) : ℚ) ≤ 5 := by exact_mod_cast hp5
    have hc0 : (0 : ℚ) ≤ ((p.author_position.getD 999 : ℕ) : ℚ) := Nat.cast_nonneg _
    constructor
    · nlinarith
    · nlinarith
  · norm_num

theorem calculate_author_position_score_unit (cfg : Config)
    (items : List PublicationItem)
    (h1 : 0 ≤ cfg.first_author_bonus) (h2 : 0 ≤ cfg.second_author_bonus) :
    0 ≤ calculate_author_position_score cfg items ∧
      calculate_author_position_score cfg items ≤ 1 := by
  unfold calculate_author_position_score
  by_cases hi : items = []
  · rw [if_pos hi]
    norm_num
  · rw [if_neg hi]
    have hmem : ∀ x ∈ items.map (author_position_value cfg), 0 ≤ x ∧ x ≤ 1 := by
      intro x hx
      rcases List.mem_map.1 hx with ⟨p, _, rfl⟩
      exact author_position_value_unit cfg p h1 h2
    have := mean_unit _ hmem
    rwa [List.length_map] at this

theorem venue_value_unit (maps : Mappings) (p : PublicationItem)
    (hj : ∀ s, 0 ≤ maps.get_journal_if s)
    (hv : ∀ s, 0 ≤ maps.get_venue_quality_score s ∧
      maps.get_venue_quality_score s ≤ 1) :
    0 ≤ venue_value maps p ∧ venue_value maps p ≤ 1 := by
  unfold venue_value
  split_ifs
  · exact ⟨le_min (by norm_num) (div_nonneg (hj _) (by norm_num)), min_le_left _ _⟩
  · exact hv _

theorem calculate_venue_score_unit (maps : Mappings) (items : List PublicationItem)
    (hj : ∀ s, 0 ≤ maps.get_journal_if s)
    (hv : ∀ s, 0 ≤ maps.get_venue_quality_score s ∧
      maps.get_venue_quality_score s ≤ 1) :
    0 ≤ calculate_venue_score maps items ∧ calculate_venue_score maps items ≤ 1 := by
  unfold calculate_venue_score
  by_cases hi : items = []
  · rw [if_pos hi]
    norm_num
  · rw [if_neg hi]
    have hmem : ∀ x ∈ items.map (venue_value maps), 0 ≤ x ∧ x ≤ 1 := by
      intro x hx
      rcases List.mem_map.1 hx with ⟨p, _, rfl⟩
      exact venue_value_unit maps p hj hv
    have := mean_unit _ hmem
    rwa [List.length_map] at this

theorem most_common_count_le (l : List String) : most_common_count l ≤ l.length := by
  unfold most_common_count
  rw [List.foldl_map]
  exact foldl_max_le_of_le _ l l.length 0
    (fun d _ => List.count_le_length d l) (Nat.zero_le _)

theorem calculate_domain_consistency_unit (cfg : Config) (cv : CVRecord) :
    0 ≤ calculate_domain_consistency cfg cv ∧
      calculate_domain_consistency cfg cv ≤ 1 := by
  simp only [calculate_domain_consistency]
  by_cases hd : collect_domains cv = []
  · rw [if_pos hd]
    norm_num
  · rw [if_neg hd]
    have hlen : (0 : ℚ) < ((collect_domains cv).length : ℚ) := by
      exact_mod_cast List.length_pos.2 hd
    have hc0 : (0 : ℚ) ≤ (most_common_count (collect_domains cv) : ℚ) /
        ((collect_domains cv).length : ℚ) := div_nonneg (Nat.cast_nonneg _) hlen.le
    have hc1 : (most_common_count (collect_domains cv) : ℚ) /
        ((collect_domains cv).length : ℚ) ≤ 1 := by
      rw [div_le_one hlen]
      exact_mod_cast most_common_count_le (collect_domains cv)
    split_ifs
    · exact ⟨le_min (by norm_num) (by linarith), min_le_left _ _⟩
    · exact ⟨hc0, hc1⟩

theorem calculate_progression_score_unit (l : List ExperienceItem) :
    0 ≤ calculate_progression_score l ∧ calculate_progression_score l ≤ 1 := by
  unfold calculate_progression_score
  split_ifs with h
  · norm_num
  · push_neg at h
    have h2 : 2 ≤ l.length := h
    have hlen : (0 : ℚ) < (l.length : ℚ) - 1 := by
      have : (2 : ℚ) ≤ (l.length : ℚ) := by exact_mod_cast h2
      linarith
    constructor
    · exact div_nonneg (Nat.cast_nonneg _) hlen.le
    · rw [div_le_one hlen]
      have hcp := count_progressions_le l
      have h1 : 1 ≤ l.length := by omega
      have : ((count_progressions l : ℕ) : ℚ) ≤ ((l.length - 1 : ℕ) : ℚ) := by
        exact_mod_cast hcp
      rwa [Nat.cast_sub h1, Nat.cast_one] at this

/-- C3 (amended): under the catalogue contract (university tiers and venue
qualities in [0,1], journal impact factors nonnegative), nonnegative bonus
and normalization knobs, nonnegative declared impact factors, and records
whose education entries have gpa ≤ scale, every value in every scorer's
`sub_scores` mapping lies in [0,1]. Without the gpa ≤ scale restriction the
claim fails: the gpa sub-score `max gpa/scale` is not clamped. -/
theorem sub_scores_in_unit_interval (cfg : Config) (maps : Mappings) (cv : CVRecord)
    (hgpa : ∀ e ∈ cv.education, e.gpa ≤ e.scale)
    (htier : ∀ s, 0 ≤ maps.get_university_tier_score s ∧
      maps.get_university_tier_score s ≤ 1)
    (hjif : ∀ s, 0 ≤ maps.get_journal_if s)
    (hvq : ∀ s, 0 ≤ maps.get_venue_quality_score s ∧
      maps.get_venue_quality_score s ≤ 1)
    (hdecl : ∀ p ∈ cv.publications, ∀ v, p.journal_if = some v → 0 ≤ v)
    (hfab : 0 ≤ cfg.first_author_bonus) (hsab : 0 ≤ cfg.second_author_bonus)
    (hdmb : 0 ≤ cfg.domain_match_bonus)
    (hmaxm : 0 ≤ cfg.max_experience_months) (hmaxif : 0 ≤ cfg.max_journal_if) :
    SubScoresBounded (all_sub_scores cfg maps cv) := by
  intro p hp
  rw [all_sub_scores] at hp
  simp only [List.mem_append] at hp
  have hvq' : ∀ s, 0 ≤ maps.get_venue_quality_score s := fun s => (hvq s).1
  rcases hp with ((hp | hp) | hp) | hp
  · unfold education_sub_scores at hp
    split_ifs at hp
    · simp only [List.mem_cons, List.not_mem_nil, or_false] at hp
      rcases hp with rfl | rfl | rfl <;> norm_num
    · simp only [List.mem_cons, List.not_mem_nil, or_false] at hp
      rcases hp with rfl | rfl | rfl
      · exact round3_mem_unit (calculate_gpa_score_unit _ hgpa).1
          (calculate_gpa_score_unit _ hgpa).2
      · exact round3_mem_unit (calculate_degree_score_unit _).1
          (calculate_degree_score_unit _).2
      · exact round3_mem_unit (calculate_university_score_unit maps _ htier).1
          (calculate_university_score_unit maps _ htier).2
  · unfold experience_sub_scores at hp
    split_ifs at hp
    · simp only [List.mem_cons, List.not_mem_nil, or_false] at hp
      rcases hp with rfl | rfl | rfl <;> norm_num
    · simp only [List.mem_cons, List.not_mem_nil, or_false] at hp
      rcases hp with rfl | rfl | rfl
      · exact round3_mem_unit (calculate_duration_score_unit cfg _ hmaxm).1
          (calculate_duration_score_unit cfg _ hmaxm).2
      · exact round3_mem_unit (calculate_domain_score_unit cfg _ hdmb).1
          (calculate_domain_score_unit cfg _ hdmb).2
      · exact round3_mem_unit (calculate_seniority_score_unit _).1
          (calculate_seniority_score_unit _).2
  · unfold publication_sub_scores at hp
    split_ifs at hp
    · simp only [List.mem_cons, List.not_mem_nil, or_false] at hp
      rcases hp with rfl | rfl | rfl <;> norm_num
    · simp only [List.mem_cons, List.not_mem_nil, or_false] at hp
      rcases hp with rfl | rfl | rfl
      · exact round3_mem_unit
          (calculate_if_score_unit cfg maps _ hjif hvq' hdecl hmaxif).1
          (calculate_if_score_unit cfg maps _ hjif hvq' hdecl hmaxif).2
      · exact round3_mem_unit
          (calculate_author_position_score_unit cfg _ hfab hsab).1
          (calculate_author_position_score_unit cfg _ hfab hsab).2
      · exact round3_mem_unit (calculate_venue_score_unit maps _ hjif hvq).1
          (calculate_venue_score_unit maps _ hjif hvq).2
  · unfold coherence_sub_scores at hp
    split_ifs at hp
    · simp only [List.mem_cons, List.not_mem_nil, or_false] at hp
      rcases hp with rfl | rfl <;> norm_num
    · simp only [List.mem_cons, List.not_mem_nil, or_false] at hp
      rcases hp with rfl | rfl
      · exact round3_mem_unit (calculate_domain_consistency_unit cfg cv).1
          (calculate_domain_consistency_unit cfg cv).2
      · exact round3_mem_unit (calculate_progression_score_unit _).1
          (calculate_progression_score_unit _).2

/-- C3 counterexample: with gpa 5.0 on a 4.0 scale the education `gpa`
sub-score is 5/4 > 1 — the maximum of gpa/scale is never clamped to [0,1]. -/
theorem sub_scores_counterexample :
    ("gpa", (5 : ℚ) / 4) ∈ all_sub_scores cfg_default maps_zero cv_gpa_over ∧
      ¬ ((5 : ℚ) / 4 ≤ 1) := by
  constructor
  · have hg : calculate_gpa_score cv_gpa_over.education = 5 / 4 := by
      norm_num [calculate_gpa_score, cv_gpa_over, max_def]
    have hr : round3 ((5 : ℚ) / 4) = 5 / 4 := by
      unfold round3
      rw [show ((5 : ℚ) / 4) * 1000 = ((1250 : ℤ) : ℚ) by norm_num,
        round_half_even_intCast]
      norm_num
    rw [all_sub_scores]
    refine List.mem_append_left _ (List.mem_append_left _ (List.mem_append_left _ ?_))
    rw [education_sub_scores,
      if_neg (show ¬ cv_gpa_over.education = [] from by simp [cv_gpa_over]), hg, hr]
    exact List.mem_cons_self _ _
  · norm_num

/-- Witness for C3 (amended) at a concrete config, catalogue and record. -/
theorem sub_scores_in_unit_interval_witness :
    SubScoresBounded (all_sub_scores cfg_default maps_zero cv_msc_only) :=
  sub_scores_in_unit_interval cfg_default maps_zero cv_msc_only
    (by
      intro e he
      simp only [cv_msc_only, List.mem_cons, List.not_mem_nil, or_false] at he
      subst he
      norm_num)
    (fun _ => by norm_num [maps_zero])
    (fun _ => by norm_num [maps_zero])
    (fun _ => by norm_num [maps_zero])
    (by
      intro p hp
      simp [cv_msc_only] at hp)
    (by norm_num [cfg_default])
    (by norm_num [cfg_default])
    (by norm_num [cfg_default])
    (by norm_num [cfg_default])
    (by norm_num [cfg_default])
